import Mathlib

/-!
Verification development for the Android-File-Transfer application.

The repository is an Electron app.  Its renderer-side transfer engine lives in
`src/modules/transferOperations.js`; the main-process IPC handlers live in the
main-process file (`src/unnamed/part_003`); the transfer-button handlers and UI
state live in `src/unnamed/part_004` and `src/modules/state.js`.

This file is a shallow embedding of that code:
* outcomes of the external bridge client (`client.push`, `client.pull`,
  `client.shell`, stream writes) are modelled as `Except String Unit` values
  supplied as parameters (keyed by path where the code keys them by path);
* the main-process `ipcMain.handle` bodies become total Lean functions from
  those bridge outcomes to the object they resolve with (`IpcResult`) — they
  catch every error, so they are total functions, never `Except`;
* `ipcRenderer.invoke` in the renderer resolves with the handler's result, so
  in the composed system the renderer-side `try`/`catch` around an invoke of
  `push-file` / `pull-file` / `create-directory` never takes its catch branch;
* every externally visible action of a transfer (IPC invokes, local `mkdirSync`
  calls, status-bar updates) is recorded in order in a trace of `Effect`s, and
  the per-file `setStatus` progress line is recorded structurally as
  `Effect.progress processed total name ok` (the code renders exactly these
  fields into the status string);
* local and Android directory trees are modelled as inductive trees; the
  `fs.readdirSync` / `list-files` of a directory returns its children in tree
  order, and a scan failure is modelled by a list of paths whose listing
  throws.
-/

/-- The object an `ipcMain.handle` body resolves with:
`{ success: true }` or `{ success: false, error: err.message }`. -/
structure IpcResult where
  success : Bool
  error : Option String
deriving Repr, DecidableEq

/-- `ipcMain.handle('push-file')` (main process): `client.push` inside
`try`/`catch`; resolves `{success:true}` on success and
`{success:false, error: msg}` on failure.  It never rejects. -/
def pushFileHandler (clientPush : Except String Unit) : IpcResult :=
  match clientPush with
  | .ok _ => ⟨true, none⟩
  | .error e => ⟨false, some e⟩

/-- `ipcMain.handle('pull-file')` (main process): `client.pull` then piping the
transfer into a local write stream, all inside `try`/`catch`; resolves
`{success:true}` or `{success:false, error: msg}`.  It never rejects. -/
def pullFileHandler (clientPull : Except String Unit)
    (streamWrite : Except String Unit) : IpcResult :=
  match clientPull with
  | .error e => ⟨false, some e⟩
  | .ok _ =>
    match streamWrite with
    | .error e => ⟨false, some e⟩
    | .ok _ => ⟨true, none⟩

/-- `ipcMain.handle('create-directory')` (main process): runs
`mkdir -p "<path>"` through `client.shell` inside `try`/`catch`.
It never rejects. -/
def createDirectoryHandler (shellMkdir : Except String Unit) : IpcResult :=
  match shellMkdir with
  | .ok _ => ⟨true, none⟩
  | .error e => ⟨false, some e⟩

/-- The shell command chosen by `ipcMain.handle('delete-item')`:
`rm -rf "<path>"` for a directory, `rm "<path>"` for a file. -/
def deleteItemCmd (isDirectory : Bool) (path : String) : String :=
  if isDirectory then "rm -rf \"" ++ path ++ "\"" else "rm \"" ++ path ++ "\""

/-- `ipcMain.handle('delete-item')` (main process): runs the `rm` command for
the item through `client.shell` inside `try`/`catch`.  It never rejects. -/
def deleteItemHandler (shellRm : Except String Unit) : IpcResult :=
  match shellRm with
  | .ok _ => ⟨true, none⟩
  | .error e => ⟨false, some e⟩

/-- POSIX `S_IFDIR`: the mode bit the code tests to classify a remote entry as
a directory (`(item.mode & 0x4000) === 0x4000`). -/
def S_IFDIR : Nat := 0x4000

/-- The directory test applied to a remote entry's `mode` field, exactly as in
`listAndroidFilesRecursively` and `renderFileList`:
`(mode & 0x4000) === 0x4000`. -/
def isDirMode (mode : Nat) : Bool := (mode &&& 0x4000) == 0x4000

/-- A raw entry of an Android directory listing, as returned by the bridge
client's `readdir` (`{name, mode, size}`). -/
structure AndroidEntry where
  name : String
  mode : Nat
  size : Nat
deriving Repr, DecidableEq

/-- `renderFileList`'s classification of a non-local (Android) entry:
`(item.mode & 0x4000) === 0x4000`, used both in the sort comparator and for
the rendered item. -/
def renderAndroidIsDir (item : AndroidEntry) : Bool :=
  (item.mode &&& 0x4000) == 0x4000

mutual

/-- A node of the Android filesystem as the bridge reports it: listing a
directory path returns the metadata (`name`, `mode`, `size`) of its children
in order; the scanner decides whether to recurse into a child purely from
its mode bits. -/
inductive ATree where
  | node (name : String) (mode : Nat) (size : Nat) (children : AForest)

/-- The ordered entries of one Android directory listing. -/
inductive AForest where
  | nil
  | cons (t : ATree) (ts : AForest)

end

mutual

/-- A node of the local filesystem, as seen through
`fs.readdirSync(dir, { withFileTypes: true })`. -/
inductive LTree where
  | lfile (name : String)
  | ldir (name : String) (children : LForest)

/-- The ordered entries of one local directory listing. -/
inductive LForest where
  | nil
  | cons (t : LTree) (ts : LForest)

end

/-- Path join used by `listAndroidFilesRecursively`:
`path.endsWith('/') ? path + name : path + '/' + name` (a string ends with
`'/'` iff its last character is `'/'`). -/
def joinAndroid (p name : String) : String :=
  if p.data.getLast? = some '/' then p ++ name else p ++ "/" ++ name

/-- `path.join(dirPath, item.name)` for local paths (host separator). -/
def hostJoin (p name : String) : String := p ++ "/" ++ name

/-- `path.join(localFolderPath, relativePath)` where `relativePath` was
obtained by `substring` and may or may not start with a separator. -/
def localJoin (base rel : String) : String :=
  if rel = "" then base
  else if rel.data.head? = some '/' then base ++ rel
  else base ++ "/" ++ rel

/-- `path.basename` (the part after the last separator), used only in a
status message. -/
def basename (p : String) : String :=
  String.mk (p.data.foldl (fun acc c => if c = '/' then [] else acc ++ [c]) [])

/-- One externally visible action of the transfer engine, in the order the
code performs them. -/
inductive Effect where
  /-- `ipcRenderer.invoke('create-directory', …)` with the result the
  main-process handler resolved with. -/
  | createDirAndroid (path : String) (r : IpcResult)
  /-- `ipcRenderer.invoke('push-file', …)` with the result the main-process
  handler resolved with. -/
  | pushFile (localPath remotePath : String) (r : IpcResult)
  /-- `ipcRenderer.invoke('pull-file', …)` with the result the main-process
  handler resolved with. -/
  | pullFile (remotePath localPath : String) (r : IpcResult)
  /-- `fs.mkdirSync(path, { recursive: true })` on the local machine. -/
  | mkdirLocal (path : String)
  /-- A plain `setStatus` message. -/
  | status (msg : String)
  /-- The per-file `setStatus` progress line
  `Transferring p/t: name` (ok) or `Error (p/t): name - msg` (not ok). -/
  | progress (processed total : Nat) (name : String) (ok : Bool)
deriving Repr, DecidableEq

/-- The `{success, errors}` object returned by the folder-transfer
functions. -/
structure TransferResult where
  success : Nat
  errors : Nat
deriving Repr, DecidableEq

/-- Output of one folder-transfer call: its returned counters and the ordered
trace of its externally visible actions. -/
structure XferOut where
  result : TransferResult
  effects : List Effect
deriving Repr, DecidableEq

/-- The `processed` values carried by the per-file progress status events of a
trace, in emission order. -/
def progressSeq (tr : List Effect) : List Nat :=
  tr.filterMap fun e =>
    match e with
    | .progress p _ _ _ => some p
    | _ => none

/-- The shared mutable counters of one folder-transfer call
(`totalFiles`, `processedFiles`, `successCount`, `errorCount`). -/
structure Counters where
  totalFiles : Nat
  processedFiles : Nat
  successCount : Nat
  errorCount : Nat
deriving Repr, DecidableEq

/-- The `items.forEach` loop of `countFiles(dirPath)` inside
`transferLocalFolderToAndroid`: every file adds one; for a subdirectory the
recursive `countFiles` first re-reads the subdirectory (`readdirSync` throws
when the listing fails, modelled by membership of the subdirectory's path in
`rf`) and then walks its entries. -/
def countItems (rf : List String) (dirPath : String) :
    LForest → Except String Nat
  | .nil => .ok 0
  | .cons (.lfile _) ts => do
      let n ← countItems rf dirPath ts
      .ok (n + 1)
  | .cons (.ldir name cs) ts =>
      if rf.contains (hostJoin dirPath name) then
        .error ("readdir failed: " ++ hostJoin dirPath name)
      else do
        let m ← countItems rf (hostJoin dirPath name) cs
        let n ← countItems rf dirPath ts
        .ok (m + n)

/-- `countFiles(dirPath)`: read the directory (throwing when the listing
fails) and count the files of the whole subtree through `countItems`. -/
def countFiles (rf : List String) (dirPath : String) (children : LForest) :
    Except String Nat :=
  if rf.contains dirPath then .error ("readdir failed: " ++ dirPath)
  else countItems rf dirPath children

/-- `processDirectory(localDir, androidDir)`'s `for (const item of items)`
loop in `transferLocalFolderToAndroid`, threading the shared counters and
collecting the effect trace in execution order.

For a file: invoke `push-file` (the main-process handler always resolves, so
the renderer's catch is unreachable in the composed system), then
`processedFiles++`, `successCount++` and the progress status line.

For a directory: invoke `create-directory` (again always resolves, so the
catch that would skip the subdirectory is unreachable), recurse, then
`successCount += subDirResult.success` and
`errorCount += subDirResult.errors` — where `subDirResult` is the object
`processDirectory` returned, holding the current values of the *shared*
counters, so the addition doubles them. -/
def processItems (push crd : String → Except String Unit)
    (localDir androidDir : String) :
    LForest → Counters → Counters × List Effect
  | .nil, c => (c, [])
  | .cons (.lfile name) ts, c =>
      let localItemPath := hostJoin localDir name
      let androidItemPath := androidDir ++ "/" ++ name
      let r := pushFileHandler (push androidItemPath)
      let c1 : Counters :=
        { c with processedFiles := c.processedFiles + 1,
                 successCount := c.successCount + 1 }
      let rest := processItems push crd localDir androidDir ts c1
      (rest.1,
       Effect.pushFile localItemPath androidItemPath r ::
       Effect.progress (c.processedFiles + 1) c.totalFiles name true ::
       rest.2)
  | .cons (.ldir name cs) ts, c =>
      let localItemPath := hostJoin localDir name
      let androidItemPath := androidDir ++ "/" ++ name
      let r := createDirectoryHandler (crd androidItemPath)
      let sub := processItems push crd localItemPath androidItemPath cs c
      let c2 : Counters :=
        { sub.1 with successCount := sub.1.successCount + sub.1.successCount,
                     errorCount := sub.1.errorCount + sub.1.errorCount }
      let rest := processItems push crd localDir androidDir ts c2
      (rest.1,
       Effect.createDirAndroid androidItemPath r :: (sub.2 ++ rest.2))

/-- `transferLocalFolderToAndroid(deviceId, localFolderPath, androidFolderPath,
setStatus)`: count files (a counting failure returns `{success: 0, errors: 1}`
before anything touches the device), create the base folder on Android, then
run `processDirectory` on the root; its return value is the final state of the
shared counters. -/
def transferLocalFolderToAndroid (push crd : String → Except String Unit)
    (rf : List String) (localFolderPath androidFolderPath : String)
    (children : LForest) : XferOut :=
  match countFiles rf localFolderPath children with
  | .error msg =>
      { result := ⟨0, 1⟩,
        effects := [.status ("Error counting files: " ++ msg)] }
  | .ok totalFiles =>
      let prep := Effect.status ("Preparing to transfer " ++ toString totalFiles
        ++ " files from " ++ basename localFolderPath ++ "...")
      let rb := createDirectoryHandler (crd androidFolderPath)
      let ce := processItems push crd localFolderPath androidFolderPath children
        ⟨totalFiles, 0, 0, 0⟩
      { result := ⟨ce.1.successCount, ce.1.errorCount⟩,
        effects := prep :: .createDirAndroid androidFolderPath rb :: ce.2 }

/-- A file collected by `listAndroidFilesRecursively`
(`{path, name, size}`). -/
structure ScanFile where
  path : String
  name : String
  size : Nat
deriving Repr, DecidableEq

/-- A directory collected by `listAndroidFilesRecursively`
(`{path, name}`). -/
structure ScanDir where
  path : String
  name : String
deriving Repr, DecidableEq

/-- The `results` object of `listAndroidFilesRecursively`. -/
structure ScanResult where
  files : List ScanFile
  directories : List ScanDir
deriving Repr, DecidableEq

/-- The `for (const item of items)` loop of `listAndroidFilesRecursively`
inside `transferAndroidFolderToLocal`: an item is a directory iff
`(item.mode & 0x4000) === 0x4000`; a directory is pushed onto
`results.directories` *before* its recursively collected contents are
appended, and files of a subdirectory are appended before later siblings'
contributions.  The recursive call on a subdirectory begins by listing that
subdirectory through `list-files`, whose handler rethrows listing errors, so
the invoke rejects when the bridge listing fails — modelled by membership of
the subdirectory's path in `fp`. -/
def scanItems (fp : List String) (base : String) :
    AForest → Except String ScanResult
  | .nil => .ok ⟨[], []⟩
  | .cons (.node name mode size cs) ts =>
      let itemPath := joinAndroid base name
      if isDirMode mode then
        if fp.contains itemPath then .error ("Error listing " ++ itemPath)
        else do
          let sub ← scanItems fp itemPath cs
          let rest ← scanItems fp base ts
          .ok ⟨sub.files ++ rest.files,
               ⟨itemPath, name⟩ :: (sub.directories ++ rest.directories)⟩
      else do
        let rest ← scanItems fp base ts
        .ok ⟨⟨itemPath, name, size⟩ :: rest.files, rest.directories⟩

/-- `listAndroidFilesRecursively(path)`: list the directory itself (the
invoke rejects when the bridge listing fails), then walk the items. -/
def listAndroidFilesRecursively (fp : List String) (path : String)
    (children : AForest) : Except String ScanResult :=
  if fp.contains path then .error ("Error listing " ++ path)
  else scanItems fp path children

/-- The `Create all directories first` loop of `transferAndroidFolderToLocal`:
for each collected directory, compute the local target from the relative path
and `mkdirSync` it unless `existsSync` already reports it. -/
def mkdirDirsLoop (localExists : String → Bool)
    (androidFolderPath localFolderPath : String) :
    List ScanDir → List Effect
  | [] => []
  | d :: ds =>
      let relativePath := d.path.drop androidFolderPath.length
      let targetPath := localJoin localFolderPath relativePath
      (if localExists targetPath then ([] : List Effect)
       else [.mkdirLocal targetPath]) ++
        mkdirDirsLoop localExists androidFolderPath localFolderPath ds

/-- The `Then transfer all files` loop of `transferAndroidFolderToLocal`:
invoke `pull-file` for each collected file (the main-process handler always
resolves, so the renderer's catch is unreachable in the composed system),
then `processedFiles++`, `successCount++` and the progress status line. -/
def pullFilesLoop (pull write : String → Except String Unit)
    (androidFolderPath localFolderPath : String) :
    List ScanFile → Counters → Counters × List Effect
  | [], c => (c, [])
  | f :: fs, c =>
      let relativePath := f.path.drop androidFolderPath.length
      let targetPath := localJoin localFolderPath relativePath
      let r := pullFileHandler (pull f.path) (write targetPath)
      let c1 : Counters :=
        { c with processedFiles := c.processedFiles + 1,
                 successCount := c.successCount + 1 }
      let c2e := pullFilesLoop pull write androidFolderPath localFolderPath fs c1
      (c2e.1, .pullFile f.path targetPath r ::
              .progress (c.processedFiles + 1) c.totalFiles f.name true :: c2e.2)

/-- `transferAndroidFolderToLocal(deviceId, androidFolderPath,
localFolderPath, setStatus)`: create the local base folder first (if absent),
then scan the Android tree; a scan failure is caught by the surrounding
`try`/`catch`, which returns the current counters with `errorCount + 1`.  On a
successful scan, create all collected directories, then pull all collected
files. -/
def transferAndroidFolderToLocal (pull write : String → Except String Unit)
    (fp : List String) (localExists : String → Bool)
    (androidFolderPath localFolderPath : String)
    (children : AForest) : XferOut :=
  let baseEffects : List Effect :=
    if localExists localFolderPath then [] else [.mkdirLocal localFolderPath]
  let scanStatus := Effect.status "Scanning Android folder structure..."
  match listAndroidFilesRecursively fp androidFolderPath children with
  | .error msg =>
      { result := ⟨0, 1⟩,
        effects := baseEffects ++ [scanStatus, .status ("Error: " ++ msg)] }
  | .ok fileList =>
      let totalFiles := fileList.files.length
      let prep := Effect.status ("Preparing to transfer " ++ toString totalFiles
        ++ " files from Android...")
      let dirEffects :=
        mkdirDirsLoop localExists androidFolderPath localFolderPath
          fileList.directories
      let ce := pullFilesLoop pull write androidFolderPath localFolderPath
          fileList.files ⟨totalFiles, 0, 0, 0⟩
      { result := ⟨ce.1.successCount, ce.1.errorCount⟩,
        effects := baseEffects ++ scanStatus :: prep ::
          (dirEffects ++ ce.2) }

/-- `transferLocalFileToAndroid(deviceId, localPath, androidPath, setStatus)`:
one `push-file` invoke inside `try`/`catch`, returning `true` when the invoke
resolves and `false` (after an error status) when it rejects.  Composed with
its own main-process handler the invoke always resolves — whatever the bridge
push's outcome — so the function returns `true` unconditionally. -/
def transferLocalFileToAndroid (push : Except String Unit)
    (localPath androidPath : String) : Bool × List Effect :=
  (true, [.pushFile localPath androidPath (pushFileHandler push)])

/-- `transferAndroidFileToLocal(deviceId, androidPath, localPath, setStatus)`:
one `pull-file` invoke inside `try`/`catch`, returning `true` when the invoke
resolves and `false` (after an error status) when it rejects.  Composed with
its own main-process handler the invoke always resolves, so the function
returns `true` unconditionally. -/
def transferAndroidFileToLocal (pull write : Except String Unit)
    (androidPath localPath : String) : Bool × List Effect :=
  (true, [.pullFile androidPath localPath (pullFileHandler pull write)])

/-- The renderer's application state (`src/modules/state.js`), restricted to
the fields the transfer handlers touch.  The selection `Set`s are modelled as
lists in iteration order. -/
structure UIState where
  selectedDevice : Option String
  localPath : String
  androidPath : String
  localSelectedItems : List String
  androidSelectedItems : List String
  isTransferring : Bool
deriving Repr, DecidableEq

/-- `clearSelections()` of `state.js`: empties both selection sets (and strips
the `selected` CSS class, which has no counterpart in this model). -/
def clearSelections (st : UIState) : UIState :=
  { st with localSelectedItems := [], androidSelectedItems := [] }

/-- One externally visible action of a transfer-button click handler. -/
inductive UIEvent where
  /-- A `setStatus` call. -/
  | status (msg : String)
  /-- An assignment to `state.isTransferring`. -/
  | flagSet (b : Bool)
  /-- The `clearSelections()` call. -/
  | clearSelections
  /-- The per-item transfer work for one selected item: the existence/stat
  check and the dispatch to the single-file or folder transfer
  (part_004, the body of the `for (const itemName of …)` loop). -/
  | itemTransfer (name : String)
  /-- An `updateProgressBar(pct, label)` call. -/
  | progressBar (pct : Nat) (label : String)
  /-- The `loadLocalFiles(); loadAndroidFiles()` refresh. -/
  | refreshViews
deriving Repr, DecidableEq

/-- The `for (const itemName of state.…SelectedItems)` loop shared by both
transfer-button handlers.  The per-item work (existence check, file/folder
dispatch and the recursive transfer it performs) is abstracted as
`doItem : name → (successes, errors)`, its contribution to the handler's
counters; the loop itself only reads the selection, updates `current` and the
counters, and emits statuses, progress-bar updates and the item's work. -/
def transferItemsLoop (doItem : String → Nat × Nat) (total : Nat) :
    List String → Nat → Nat → Nat → Nat × Nat × List UIEvent
  | [], _, s, e => (s, e, [])
  | name :: rest, current, s, e =>
      let cur := current + 1
      let d := doItem name
      let evs := [UIEvent.status ("Transferring (" ++ toString cur ++ "/"
                    ++ toString total ++ "): " ++ name),
                  UIEvent.progressBar ((cur - 1) * 100 / total)
                    (toString cur ++ "/" ++ toString total),
                  UIEvent.itemTransfer name,
                  UIEvent.progressBar (cur * 100 / total)
                    (toString cur ++ "/" ++ toString total)]
      let r := transferItemsLoop doItem total rest cur (s + d.1) (e + d.2)
      (r.1, r.2.1, evs ++ r.2.2)

/-- The events a transfer-button handler emits after its guards pass: set the
flag, announce, run the loop, then the completion statuses, the view refresh
and — in `finally` — clear the flag and the selections. -/
def transferRunEvents (prepareMsg : String) (doItem : String → Nat × Nat)
    (items : List String) : List UIEvent :=
  let r := transferItemsLoop doItem items.length items 0 0 0
  UIEvent.flagSet true ::
  UIEvent.status prepareMsg ::
  r.2.2 ++
  [UIEvent.progressBar 100 "Complete",
   UIEvent.status ("Transfer complete. Success: " ++ toString r.1
     ++ ", Errors: " ++ toString r.2.1),
   UIEvent.refreshViews,
   UIEvent.status "Transfer completed and views refreshed",
   UIEvent.flagSet false,
   UIEvent.clearSelections]

/-- The `transferToAndroidBtn` click handler (part_004): reject when no device
is selected, when nothing is selected, or when a transfer is already in
progress; otherwise set `isTransferring`, process every selected local item,
and in `finally` reset the flag and clear the selections. -/
def transferToAndroidClick (doItem : String → Nat × Nat) (st : UIState) :
    UIState × List UIEvent :=
  if st.selectedDevice.isNone then
    (st, [.status "No device selected"])
  else if st.localSelectedItems.length == 0 then
    (st, [.status "No items selected for transfer"])
  else if st.isTransferring then
    (st, [.status "Transfer already in progress"])
  else
    (clearSelections { st with isTransferring := false },
     transferRunEvents "Preparing transfer to Android..." doItem
       st.localSelectedItems)

/-- The `transferToLocalBtn` click handler (part_004): same structure as
`transferToAndroidClick`, over the Android selection. -/
def transferToLocalClick (doItem : String → Nat × Nat) (st : UIState) :
    UIState × List UIEvent :=
  if st.selectedDevice.isNone then
    (st, [.status "No device selected"])
  else if st.androidSelectedItems.length == 0 then
    (st, [.status "No items selected for transfer"])
  else if st.isTransferring then
    (st, [.status "Transfer already in progress"])
  else
    (clearSelections { st with isTransferring := false },
     transferRunEvents "Preparing transfer to local..." doItem
       st.androidSelectedItems)

/-- Does the effect invoke `create-directory` (to any path)? -/
def Effect.isCreateDirAndroid : Effect → Bool
  | .createDirAndroid _ _ => true
  | _ => false

/-- Does the effect invoke `push-file` (to any path)? -/
def Effect.isPushFile : Effect → Bool
  | .pushFile _ _ _ => true
  | _ => false

/-- Does the effect invoke `pull-file` (to any path)? -/
def Effect.isPullFile : Effect → Bool
  | .pullFile _ _ _ => true
  | _ => false

/-- Is the effect a local `mkdirSync`? -/
def Effect.isMkdirLocal : Effect → Bool
  | .mkdirLocal _ => true
  | _ => false

/-- Does the effect invoke `create-directory` for exactly this path? -/
def Effect.isCreateDirAt (p : String) : Effect → Bool
  | .createDirAndroid q _ => q == p
  | _ => false

/-- Does the effect invoke `push-file` with exactly this remote path? -/
def Effect.isPushTo (remote : String) : Effect → Bool
  | .pushFile _ q _ => q == remote
  | _ => false

/-- Is the UI event the per-item transfer work? -/
def UIEvent.isItemTransfer : UIEvent → Bool
  | .itemTransfer _ => true
  | _ => false

/-- Number of files in a local forest (what `countFiles` computes when every
directory is readable). -/
def fileCount : LForest → Nat
  | .nil => 0
  | .cons (.lfile _) ts => fileCount ts + 1
  | .cons (.ldir _ cs) ts => fileCount cs + fileCount ts

/-- `LFilePath ad ts q`: while `processDirectory` processes the forest `ts`
under the Android directory `ad`, some file is pushed to the Android path
`q`. -/
inductive LFilePath : String → LForest → String → Prop where
  | head (ad name : String) (ts : LForest) :
      LFilePath ad (.cons (.lfile name) ts) (ad ++ "/" ++ name)
  | inside {ad name cs q} (ts : LForest) :
      LFilePath (ad ++ "/" ++ name) cs q →
      LFilePath ad (.cons (.ldir name cs) ts) q
  | tail {ad ts q} (t : LTree) :
      LFilePath ad ts q → LFilePath ad (.cons t ts) q

/-- `LDirPath ad ts q`: while `processDirectory` processes the forest `ts`
under the Android directory `ad`, some directory is created at the Android
path `q`. -/
inductive LDirPath : String → LForest → String → Prop where
  | head (ad name : String) (cs : LForest) (ts : LForest) :
      LDirPath ad (.cons (.ldir name cs) ts) (ad ++ "/" ++ name)
  | inside {ad name cs q} (ts : LForest) :
      LDirPath (ad ++ "/" ++ name) cs q →
      LDirPath ad (.cons (.ldir name cs) ts) q
  | tail {ad ts q} (t : LTree) :
      LDirPath ad ts q → LDirPath ad (.cons t ts) q

/-- `LNestedFile ad ts p q`: in the forest `ts` under `ad`, the directory
created at Android path `p` strictly contains the file pushed to Android path
`q`. -/
inductive LNestedFile : String → LForest → String → String → Prop where
  | here {ad name cs q} (ts : LForest) :
      LFilePath (ad ++ "/" ++ name) cs q →
      LNestedFile ad (.cons (.ldir name cs) ts) (ad ++ "/" ++ name) q
  | inside {ad name cs p q} (ts : LForest) :
      LNestedFile (ad ++ "/" ++ name) cs p q →
      LNestedFile ad (.cons (.ldir name cs) ts) p q
  | tail {ad ts p q} (t : LTree) :
      LNestedFile ad ts p q → LNestedFile ad (.cons t ts) p q

/-- `LNestedDir ad ts p q`: in the forest `ts` under `ad`, the directory
created at Android path `p` strictly contains the directory created at
Android path `q`. -/
inductive LNestedDir : String → LForest → String → String → Prop where
  | here {ad name cs q} (ts : LForest) :
      LDirPath (ad ++ "/" ++ name) cs q →
      LNestedDir ad (.cons (.ldir name cs) ts) (ad ++ "/" ++ name) q
  | inside {ad name cs p q} (ts : LForest) :
      LNestedDir (ad ++ "/" ++ name) cs p q →
      LNestedDir ad (.cons (.ldir name cs) ts) p q
  | tail {ad ts p q} (t : LTree) :
      LNestedDir ad ts p q → LNestedDir ad (.cons t ts) p q

/-- `AScanDir base ts q`: scanning the forest `ts` under `base`,
`listAndroidFilesRecursively` records a directory entry with path `q`. -/
inductive AScanDir : String → AForest → String → Prop where
  | head {base name mode size cs} (ts : AForest) :
      isDirMode mode = true →
      AScanDir base (.cons (.node name mode size cs) ts) (joinAndroid base name)
  | inside {base name mode size cs q} (ts : AForest) :
      isDirMode mode = true →
      AScanDir (joinAndroid base name) cs q →
      AScanDir base (.cons (.node name mode size cs) ts) q
  | tail {base ts q} (t : ATree) :
      AScanDir base ts q → AScanDir base (.cons t ts) q

/-- `AScanFile base ts q`: scanning the forest `ts` under `base`,
`listAndroidFilesRecursively` records a file entry with path `q`. -/
inductive AScanFile : String → AForest → String → Prop where
  | head {base name mode size cs} (ts : AForest) :
      isDirMode mode = false →
      AScanFile base (.cons (.node name mode size cs) ts) (joinAndroid base name)
  | inside {base name mode size cs q} (ts : AForest) :
      isDirMode mode = true →
      AScanFile (joinAndroid base name) cs q →
      AScanFile base (.cons (.node name mode size cs) ts) q
  | tail {base ts q} (t : ATree) :
      AScanFile base ts q → AScanFile base (.cons t ts) q

/-- `ANestedDir base ts p q`: in the forest `ts` under `base`, the scanned
directory entry with path `p` strictly contains the scanned directory entry
with path `q`. -/
inductive ANestedDir : String → AForest → String → String → Prop where
  | here {base name mode size cs q} (ts : AForest) :
      isDirMode mode = true →
      AScanDir (joinAndroid base name) cs q →
      ANestedDir base (.cons (.node name mode size cs) ts)
        (joinAndroid base name) q
  | inside {base name mode size cs p q} (ts : AForest) :
      isDirMode mode = true →
      ANestedDir (joinAndroid base name) cs p q →
      ANestedDir base (.cons (.node name mode size cs) ts) p q
  | tail {base ts p q} (t : ATree) :
      ANestedDir base ts p q → ANestedDir base (.cons t ts) p q

/-- `ANestedFile base ts p q`: in the forest `ts` under `base`, the scanned
directory entry with path `p` strictly contains the scanned file entry with
path `q`. -/
inductive ANestedFile : String → AForest → String → String → Prop where
  | here {base name mode size cs q} (ts : AForest) :
      isDirMode mode = true →
      AScanFile (joinAndroid base name) cs q →
      ANestedFile base (.cons (.node name mode size cs) ts)
        (joinAndroid base name) q
  | inside {base name mode size cs p q} (ts : AForest) :
      isDirMode mode = true →
      ANestedFile (joinAndroid base name) cs p q →
      ANestedFile base (.cons (.node name mode size cs) ts) p q
  | tail {base ts p q} (t : ATree) :
      ANestedFile base ts p q → ANestedFile base (.cons t ts) p q

/-! Inversion lemmas for the scanner. -/

/-- A successful `listAndroidFilesRecursively` means the listing of the path
itself did not fail and the items walk succeeded. -/
theorem listRec_ok {fp : List String} {path : String} {children : AForest}
    {r : ScanResult}
    (h : listAndroidFilesRecursively fp path children = .ok r) :
    ¬ path ∈ fp ∧ scanItems fp path children = .ok r := by
  rw [listAndroidFilesRecursively] at h
  by_cases hc : path ∈ fp
  · simp [hc] at h
  · exact ⟨hc, by simpa [hc] using h⟩

/-- Inversion of a successful scan step on a directory entry. -/
theorem scanItems_cons_dir_ok {fp : List String} {base name : String}
    {mode size : Nat} {cs ts : AForest} {r : ScanResult}
    (hm : isDirMode mode = true)
    (h : scanItems fp base (.cons (.node name mode size cs) ts) = .ok r) :
    ¬ joinAndroid base name ∈ fp ∧
    ∃ sub rest,
      scanItems fp (joinAndroid base name) cs = .ok sub ∧
      scanItems fp base ts = .ok rest ∧
      r = ⟨sub.files ++ rest.files,
           ⟨joinAndroid base name, name⟩ ::
             (sub.directories ++ rest.directories)⟩ := by
  rw [scanItems] at h
  rw [if_pos hm] at h
  by_cases hc : fp.contains (joinAndroid base name) = true
  · rw [if_pos hc] at h; simp at h
  · refine ⟨by simpa using hc, ?_⟩
    rw [if_neg hc] at h
    cases hsub : scanItems fp (joinAndroid base name) cs with
    | error e => simp [hsub, bind, Except.bind] at h
    | ok sub =>
      cases hrest : scanItems fp base ts with
      | error e => simp [hsub, hrest, bind, Except.bind] at h
      | ok rest =>
        refine ⟨sub, rest, rfl, rfl, ?_⟩
        simp [hsub, hrest, bind, Except.bind] at h
        exact h.symm

/-- Inversion of a successful scan step on a file entry. -/
theorem scanItems_cons_file_ok {fp : List String} {base name : String}
    {mode size : Nat} {cs ts : AForest} {r : ScanResult}
    (hm : isDirMode mode = false)
    (h : scanItems fp base (.cons (.node name mode size cs) ts) = .ok r) :
    ∃ rest,
      scanItems fp base ts = .ok rest ∧
      r = ⟨⟨joinAndroid base name, name, size⟩ :: rest.files,
           rest.directories⟩ := by
  rw [scanItems] at h
  rw [if_neg (by simp [hm])] at h
  cases hrest : scanItems fp base ts with
  | error e => simp [hrest, bind, Except.bind] at h
  | ok rest =>
    refine ⟨rest, rfl, ?_⟩
    simp [hrest, bind, Except.bind] at h
    exact h.symm

/-- C1.  The claim is that when exactly one file's copy primitive fails in a
recursive folder transfer of `N` files, the transfer returns
`{successCount: N-1, errorCount: 1}` with every other file still attempted.
The code does not do this: the `push-file` / `pull-file` main-process
handlers catch the bridge failure and *resolve* with `{success:false}`, so
the renderer's `catch` branch — the only place `errorCount` is incremented
per file — never runs, and the failed file is counted as a success.  With
`N = 2` and the second file failing, both directions return
`{success: 2, errors: 0}` instead of `{success: 1, errors: 1}`, even though
the trace records the failed primitive (the file was attempted and its
handler resolved `{success:false, error:…}`).  Additionally,
`processDirectory` adds the returned *shared* counters back into themselves
for every subdirectory, so a nested all-success transfer of 2 files reports
`{success: 4, errors: 0}`. -/
theorem C1_one_failure_miscounted :
    (transferLocalFolderToAndroid
      (fun p => if p = "/sdcard/dest/f2" then .error "push failed" else .ok ())
      (fun _ => .ok ()) [] "/home/u/src" "/sdcard/dest"
      (.cons (.lfile "f1") (.cons (.lfile "f2") .nil))).result = ⟨2, 0⟩ ∧
    Effect.pushFile "/home/u/src/f2" "/sdcard/dest/f2"
        ⟨false, some "push failed"⟩ ∈
      (transferLocalFolderToAndroid
        (fun p => if p = "/sdcard/dest/f2" then .error "push failed" else .ok ())
        (fun _ => .ok ()) [] "/home/u/src" "/sdcard/dest"
        (.cons (.lfile "f1") (.cons (.lfile "f2") .nil))).effects ∧
    (transferAndroidFolderToLocal
      (fun p => if p = "/sdcard/src/f2" then .error "pull failed" else .ok ())
      (fun _ => .ok ()) [] (fun _ => false) "/sdcard/src" "/home/u/dest"
      (.cons (.node "f1" 33279 4 .nil)
        (.cons (.node "f2" 33279 4 .nil) .nil))).result = ⟨2, 0⟩ ∧
    Effect.pullFile "/sdcard/src/f2" "/home/u/dest/f2"
        ⟨false, some "pull failed"⟩ ∈
      (transferAndroidFolderToLocal
        (fun p => if p = "/sdcard/src/f2" then .error "pull failed" else .ok ())
        (fun _ => .ok ()) [] (fun _ => false) "/sdcard/src" "/home/u/dest"
        (.cons (.node "f1" 33279 4 .nil)
          (.cons (.node "f2" 33279 4 .nil) .nil))).effects ∧
    (transferLocalFolderToAndroid (fun _ => .ok ()) (fun _ => .ok ()) []
      "/home/u/src" "/sdcard/dest"
      (.cons (.lfile "a.txt")
        (.cons (.ldir "sub" (.cons (.lfile "b.txt") .nil)) .nil))).result =
      ⟨4, 0⟩ := by
  exact ⟨rfl, by decide, rfl, by decide, rfl⟩

/-- C5.  The claim is that the single-file transfers return `true` exactly
when the underlying push/pull primitive succeeded and `false`, with a status
message, exactly when it failed.  The code does not: the `push-file` /
`pull-file` handlers resolve `{success:false}` on a primitive failure, the
renderer's `await` therefore never throws, and `transferLocalFileToAndroid` /
`transferAndroidFileToLocal` return `true` (with no error status) even
though the primitive failed — contradicting their own doc comments
("resolves to true if transfer was successful").  They do never throw past
the caller. -/
theorem C5_single_file_returns_true_on_failure :
    transferLocalFileToAndroid (.error "io error")
        "/home/u/a.txt" "/sdcard/a.txt" =
      (true, [.pushFile "/home/u/a.txt" "/sdcard/a.txt"
        ⟨false, some "io error"⟩]) ∧
    transferAndroidFileToLocal (.error "io error") (.ok ())
        "/sdcard/a.txt" "/home/u/a.txt" =
      (true, [.pullFile "/sdcard/a.txt" "/home/u/a.txt"
        ⟨false, some "io error"⟩]) := by
  exact ⟨rfl, rfl⟩

/-- C10.  The main-process IPC handlers for `push-file`, `pull-file`,
`create-directory` and `delete-item` never reject: each is a *total*
function of its bridge outcomes resolving either `{success: true}` (exactly
when every underlying operation succeeded) or `{success: false, error: msg}`
(carrying the failure's message).  A renderer that merely awaits the invoke
can therefore never observe a bridge failure as a thrown exception; it must
inspect the resolved object's `success` field. -/
theorem C10_handlers_never_reject :
    (∀ p : Except String Unit,
        (p = .ok () ∧ pushFileHandler p = ⟨true, none⟩) ∨
        (∃ e, p = .error e ∧ pushFileHandler p = ⟨false, some e⟩)) ∧
    (∀ pl w : Except String Unit,
        (pl = .ok () ∧ w = .ok () ∧ pullFileHandler pl w = ⟨true, none⟩) ∨
        (∃ e, pullFileHandler pl w = ⟨false, some e⟩)) ∧
    (∀ s : Except String Unit,
        (s = .ok () ∧ createDirectoryHandler s = ⟨true, none⟩) ∨
        (∃ e, s = .error e ∧ createDirectoryHandler s = ⟨false, some e⟩)) ∧
    (∀ s : Except String Unit,
        (s = .ok () ∧ deleteItemHandler s = ⟨true, none⟩) ∨
        (∃ e, s = .error e ∧ deleteItemHandler s = ⟨false, some e⟩)) := by
  refine ⟨?_, ?_, ?_, ?_⟩
  · intro p
    cases p with
    | ok u => cases u; exact .inl ⟨rfl, rfl⟩
    | error e => exact .inr ⟨e, rfl, rfl⟩
  · intro pl w
    cases pl with
    | ok u =>
      cases u
      cases w with
      | ok v => cases v; exact .inl ⟨rfl, rfl, rfl⟩
      | error e => exact .inr ⟨e, rfl⟩
    | error e => exact .inr ⟨e, rfl⟩
  · intro s
    cases s with
    | ok u => cases u; exact .inl ⟨rfl, rfl⟩
    | error e => exact .inr ⟨e, rfl, rfl⟩
  · intro s
    cases s with
    | ok u => cases u; exact .inl ⟨rfl, rfl⟩
    | error e => exact .inr ⟨e, rfl, rfl⟩

/-- C6.  Remote (Android) entries are classified as directories exactly by
the `S_IFDIR` bit of their `mode` field — `(mode & 0x4000) === 0x4000`,
i.e. bit 14 is set — never by name or extension, and the same test is used
by the recursive scanner and by the file-list renderer: `isDirMode` equals
the `testBit 14` reading, `renderFileList`'s test equals `isDirMode` and is
independent of `name` and `size`, and a successful scan step records the
head entry as a directory when `isDirMode` holds and as a file when it does
not, whatever the entry's name. -/
theorem C6_mode_bit_classification :
    (∀ m : Nat, isDirMode m = m.testBit 14) ∧
    S_IFDIR = 2 ^ 14 ∧
    (∀ item : AndroidEntry, renderAndroidIsDir item = isDirMode item.mode) ∧
    (∀ n₁ n₂ : String, ∀ m s₁ s₂ : Nat,
        renderAndroidIsDir ⟨n₁, m, s₁⟩ = renderAndroidIsDir ⟨n₂, m, s₂⟩) ∧
    (∀ fp base name mode size cs ts r,
        scanItems fp base (.cons (.node name mode size cs) ts) = .ok r →
        (isDirMode mode = true →
          r.directories.head? = some ⟨joinAndroid base name, name⟩) ∧
        (isDirMode mode = false →
          r.files.head? = some ⟨joinAndroid base name, name, size⟩)) := by
  refine ⟨?_, by norm_num [S_IFDIR], fun _ => rfl, fun _ _ _ _ _ => rfl, ?_⟩
  · intro m
    have h : (0x4000 : Nat) = 2 ^ 14 := by norm_num
    rw [isDirMode, h, Nat.and_two_pow]
    cases hb : m.testBit 14 <;> simp [hb]
  · intro fp base name mode size cs ts r h
    constructor
    · intro hm
      obtain ⟨-, sub, rest, -, -, hr⟩ := scanItems_cons_dir_ok hm h
      simp [hr]
    · intro hm
      obtain ⟨rest, -, hr⟩ := scanItems_cons_file_ok hm h
      simp [hr]

/-- Witness for C6 at a concrete scan: a directory entry (mode `0o40755` =
`16877`) is recorded at the head of `directories` and a file entry (mode
`0o100644` = `33188`) at the head of `files`. -/
theorem C6_mode_bit_classification_witness :
    (ScanResult.directories ⟨[], [⟨"/sdcard/d", "d"⟩]⟩).head? =
      some ⟨joinAndroid "/sdcard" "d", "d"⟩ ∧
    (ScanResult.files ⟨[⟨"/sdcard/f", "f", 7⟩], []⟩).head? =
      some ⟨joinAndroid "/sdcard" "f", "f", 7⟩ :=
  ⟨(C6_mode_bit_classification.2.2.2.2 [] "/sdcard" "d" 16877 0 .nil .nil
      ⟨[], [⟨"/sdcard/d", "d"⟩]⟩ rfl).1 (by decide),
   (C6_mode_bit_classification.2.2.2.2 [] "/sdcard" "f" 33188 7 .nil .nil
      ⟨[⟨"/sdcard/f", "f", 7⟩], []⟩ rfl).2 (by decide)⟩

/-- C2 counterexample.  The claim says a failed scan leaves the destination
completely untouched in both directions.  In the Android→local direction the
code creates the destination base folder *before* scanning: here the scan of
`/sdcard/src` fails, the transfer returns the error result `{0, 1}`, and yet
`mkdirSync("/home/u/dest")` has already run. -/
theorem C2_scan_fail_touches_destination :
    listAndroidFilesRecursively ["/sdcard/src"] "/sdcard/src" .nil =
      .error "Error listing /sdcard/src" ∧
    (transferAndroidFolderToLocal (fun _ => .ok ()) (fun _ => .ok ())
      ["/sdcard/src"] (fun _ => false) "/sdcard/src" "/home/u/dest"
      .nil).result = ⟨0, 1⟩ ∧
    Effect.mkdirLocal "/home/u/dest" ∈
      (transferAndroidFolderToLocal (fun _ => .ok ()) (fun _ => .ok ())
        ["/sdcard/src"] (fun _ => false) "/sdcard/src" "/home/u/dest"
        .nil).effects :=
  ⟨rfl, rfl, by decide⟩

/-- C2 (amended).  A failed source enumeration aborts the transfer with an
error result before any file is copied.  In the local→Android direction it
aborts before *anything* happens on the destination: the whole output is the
error status and `{success: 0, errors: 1}`.  In the Android→local direction
the destination base folder is created (when absent) *before* the scan, so a
failed scan can leave that base folder behind; but the transfer still
returns `{success: 0, errors: 1}` having pulled no file and created no
directory other than the base folder. -/
theorem C2_failed_scan_aborts :
    (∀ (push crd : String → Except String Unit) (rf : List String)
        (lf af : String) (ts : LForest) (msg : String),
        countFiles rf lf ts = .error msg →
        transferLocalFolderToAndroid push crd rf lf af ts =
          ⟨⟨0, 1⟩, [.status ("Error counting files: " ++ msg)]⟩) ∧
    (∀ (pull write : String → Except String Unit) (fp : List String)
        (ex : String → Bool) (af lf : String) (ts : AForest) (msg : String),
        listAndroidFilesRecursively fp af ts = .error msg →
        (transferAndroidFolderToLocal pull write fp ex af lf ts).result =
          ⟨0, 1⟩ ∧
        ∀ e ∈ (transferAndroidFolderToLocal pull write fp ex af lf ts).effects,
          e.isPullFile = false ∧ (e.isMkdirLocal = true → e = .mkdirLocal lf)) := by
  constructor
  · intro push crd rf lf af ts msg h
    simp [transferLocalFolderToAndroid, h]
  · intro pull write fp ex af lf ts msg h
    constructor
    · simp [transferAndroidFolderToLocal, h]
    · intro e he
      simp only [transferAndroidFolderToLocal, h] at he
      by_cases hex : ex lf = true
      · simp [hex] at he
        rcases he with he | he <;> subst he <;>
          simp [Effect.isPullFile, Effect.isMkdirLocal]
      · simp [hex] at he
        rcases he with he | he | he <;> subst he <;>
          simp [Effect.isPullFile, Effect.isMkdirLocal]

/-- Witness for C2 (amended) at concrete failing scans in both directions. -/
theorem C2_failed_scan_aborts_witness :
    transferLocalFolderToAndroid (fun _ => .ok ()) (fun _ => .ok ())
      ["/home/u/src"] "/home/u/src" "/sdcard/dest" .nil =
      ⟨⟨0, 1⟩,
       [.status ("Error counting files: " ++ "readdir failed: /home/u/src")]⟩ ∧
    (transferAndroidFolderToLocal (fun _ => .ok ()) (fun _ => .ok ())
      ["/sdcard/src"] (fun _ => false) "/sdcard/src" "/home/u/dest"
      .nil).result = ⟨0, 1⟩ :=
  ⟨C2_failed_scan_aborts.1 (fun _ => .ok ()) (fun _ => .ok ())
     ["/home/u/src"] "/home/u/src" "/sdcard/dest" .nil
     "readdir failed: /home/u/src" rfl,
   (C2_failed_scan_aborts.2 (fun _ => .ok ()) (fun _ => .ok ())
     ["/sdcard/src"] (fun _ => false) "/sdcard/src" "/home/u/dest" .nil
     "Error listing /sdcard/src" rfl).1⟩

/-- C3 counterexample.  The claim says every folder transfer attempts all
directory creations before any file copy.  `transferLocalFolderToAndroid`
does not: `processDirectory` walks the listing in order, so with a listing
`[a.txt, sub]` the push of `a.txt` (trace index 2) happens before the
creation of `sub` (trace index 4). -/
theorem C3_file_copied_before_directory :
    ∃ i j, i < j ∧
      (((transferLocalFolderToAndroid (fun _ => .ok ()) (fun _ => .ok ()) []
          "/home/u/src" "/sdcard/dest"
          (.cons (.lfile "a.txt") (.cons (.ldir "sub" .nil) .nil))).effects.get?
            i).any Effect.isPushFile) = true ∧
      (((transferLocalFolderToAndroid (fun _ => .ok ()) (fun _ => .ok ()) []
          "/home/u/src" "/sdcard/dest"
          (.cons (.lfile "a.txt") (.cons (.ldir "sub" .nil) .nil))).effects.get?
            j).any Effect.isCreateDirAndroid) = true :=
  ⟨2, 4, by decide, by decide, by decide⟩

/-! Induction principles for the forest types, and `progressSeq` pushing. -/

/-- Induction over a local forest with hypotheses for both the children and
the tail of a directory entry. -/
theorem forestInd (motive : LForest → Prop)
    (hnil : motive .nil)
    (hfile : ∀ n ts, motive ts → motive (.cons (.lfile n) ts))
    (hdir : ∀ n cs ts, motive cs → motive ts → motive (.cons (.ldir n cs) ts)) :
    ∀ ts, motive ts :=
  @LForest.rec (fun t => ∀ ts, motive ts → motive (.cons t ts)) motive
    (fun n ts h => hfile n ts h)
    (fun n cs ihcs ts h => hdir n cs ts ihcs h)
    hnil
    (fun _ ts iht ihts => iht ts ihts)

/-- Induction over an Android forest with hypotheses for both the children
and the tail of an entry. -/
theorem aForestInd (motive : AForest → Prop)
    (hnil : motive .nil)
    (hcons : ∀ name mode size cs ts,
      motive cs → motive ts → motive (.cons (.node name mode size cs) ts)) :
    ∀ ts, motive ts :=
  @AForest.rec (fun t => ∀ ts, motive ts → motive (.cons t ts)) motive
    (fun name mode size cs ihcs ts h => hcons name mode size cs ts ihcs h)
    hnil
    (fun _ ts iht ihts => iht ts ihts)

theorem progressSeq_nil : progressSeq [] = [] := rfl

theorem progressSeq_append (a b : List Effect) :
    progressSeq (a ++ b) = progressSeq a ++ progressSeq b :=
  List.filterMap_append a b _

theorem progressSeq_cons_createDir (p : String) (r : IpcResult)
    (l : List Effect) :
    progressSeq (.createDirAndroid p r :: l) = progressSeq l := rfl

theorem progressSeq_cons_push (lp rp : String) (r : IpcResult)
    (l : List Effect) :
    progressSeq (.pushFile lp rp r :: l) = progressSeq l := rfl

theorem progressSeq_cons_pull (rp lp : String) (r : IpcResult)
    (l : List Effect) :
    progressSeq (.pullFile rp lp r :: l) = progressSeq l := rfl

theorem progressSeq_cons_mkdir (p : String) (l : List Effect) :
    progressSeq (.mkdirLocal p :: l) = progressSeq l := rfl

theorem progressSeq_cons_status (m : String) (l : List Effect) :
    progressSeq (.status m :: l) = progressSeq l := rfl

theorem progressSeq_cons_progress (p t : Nat) (n : String) (ok : Bool)
    (l : List Effect) :
    progressSeq (.progress p t n ok :: l) = p :: progressSeq l := rfl

/-- A successful `countItems` returns the number of files of the forest. -/
theorem countItems_fileCount {rf : List String} :
    ∀ (d : String) (ts : LForest) (n : Nat),
      countItems rf d ts = .ok n → n = fileCount ts := by
  intro d ts
  induction d, ts using countItems.induct rf with
  | case1 d => intro n h; simp [countItems] at h; simp [fileCount, ← h]
  | case2 d name ts ih =>
    intro n h
    rw [countItems] at h
    cases hr : countItems rf d ts with
    | error e => simp [hr, bind, Except.bind] at h
    | ok m =>
      simp [hr, bind, Except.bind] at h
      simp [fileCount, ← h, ih m hr]
  | case3 d name cs ts hc =>
    intro n h
    rw [countItems] at h
    rw [if_pos hc] at h
    simp at h
  | case4 d name cs ts hc ih1 ih2 =>
    intro n h
    rw [countItems] at h
    rw [if_neg hc] at h
    cases h1 : countItems rf (hostJoin d name) cs with
    | error e => simp [h1, bind, Except.bind] at h
    | ok m =>
      cases h2 : countItems rf d ts with
      | error e => simp [h1, h2, bind, Except.bind] at h
      | ok k =>
        simp [h1, h2, bind, Except.bind] at h
        simp [fileCount, ← h, ih1 m h1, ih2 k h2]

/-- A successful `countFiles` returns the number of files of the forest. -/
theorem countFiles_fileCount {rf : List String} {d : String} {ts : LForest}
    {n : Nat} (h : countFiles rf d ts = .ok n) : n = fileCount ts := by
  rw [countFiles] at h
  by_cases hc : rf.contains d = true
  · rw [if_pos hc] at h; simp at h
  · rw [if_neg hc] at h
    exact countItems_fileCount d ts n h

/-- `processDirectory` emits the per-file progress values
`c.processedFiles + 1, …, c.processedFiles + fileCount ts` in order, ends
with `processedFiles` advanced by exactly the number of files, and never
changes `totalFiles`. -/
theorem processItems_progress (push crd : String → Except String Unit) :
    ∀ (ts : LForest) (ld ad : String) (c : Counters),
      progressSeq (processItems push crd ld ad ts c).2 =
        List.range' (c.processedFiles + 1) (fileCount ts) ∧
      (processItems push crd ld ad ts c).1.processedFiles =
        c.processedFiles + fileCount ts ∧
      (processItems push crd ld ad ts c).1.totalFiles = c.totalFiles := by
  intro ts
  induction ts using forestInd with
  | hnil => intro ld ad c; simp [processItems, progressSeq, fileCount]
  | hfile n ts ih =>
    intro ld ad c
    simp only [processItems, progressSeq, List.filterMap_cons, fileCount]
    obtain ⟨h1, h2, h3⟩ := ih ld ad
      ⟨c.totalFiles, c.processedFiles + 1, c.successCount + 1, c.errorCount⟩
    refine ⟨?_, ?_, ?_⟩
    · rw [show Counters.processedFiles ⟨c.totalFiles, c.processedFiles + 1,
        c.successCount + 1, c.errorCount⟩ = c.processedFiles + 1 from rfl] at h1
      rw [progressSeq] at h1
      rw [h1, List.range'_succ]
    · rw [h2]
      show c.processedFiles + 1 + fileCount ts = c.processedFiles + (fileCount ts + 1)
      omega
    · rw [h3]
  | hdir n cs ts ihcs ihts =>
    intro ld ad c
    simp only [processItems, progressSeq, List.filterMap_cons,
      List.filterMap_append, fileCount]
    obtain ⟨h1, h2, h3⟩ := ihcs (hostJoin ld n) (ad ++ "/" ++ n) c
    obtain ⟨g1, g2, g3⟩ := ihts ld ad
      ⟨(processItems push crd (hostJoin ld n) (ad ++ "/" ++ n) cs c).1.totalFiles,
       (processItems push crd (hostJoin ld n) (ad ++ "/" ++ n) cs c).1.processedFiles,
       (processItems push crd (hostJoin ld n) (ad ++ "/" ++ n) cs c).1.successCount +
         (processItems push crd (hostJoin ld n) (ad ++ "/" ++ n) cs c).1.successCount,
       (processItems push crd (hostJoin ld n) (ad ++ "/" ++ n) cs c).1.errorCount +
         (processItems push crd (hostJoin ld n) (ad ++ "/" ++ n) cs c).1.errorCount⟩
    refine ⟨?_, ?_, ?_⟩
    · rw [progressSeq] at h1 g1
      rw [h1, g1]
      simp only [show Counters.processedFiles
        ⟨(processItems push crd (hostJoin ld n) (ad ++ "/" ++ n) cs c).1.totalFiles,
         (processItems push crd (hostJoin ld n) (ad ++ "/" ++ n) cs c).1.processedFiles,
         (processItems push crd (hostJoin ld n) (ad ++ "/" ++ n) cs c).1.successCount +
           (processItems push crd (hostJoin ld n) (ad ++ "/" ++ n) cs c).1.successCount,
         (processItems push crd (hostJoin ld n) (ad ++ "/" ++ n) cs c).1.errorCount +
           (processItems push crd (hostJoin ld n) (ad ++ "/" ++ n) cs c).1.errorCount⟩ =
        (processItems push crd (hostJoin ld n) (ad ++ "/" ++ n) cs c).1.processedFiles
        from rfl]
      rw [h2]
      rw [show c.processedFiles + fileCount cs + 1 =
        c.processedFiles + 1 + 1 * fileCount cs by ring]
      rw [List.range'_append]
      rw [Nat.add_comm (fileCount ts) (fileCount cs)]
    · rw [g2]
      simp only [show ∀ a b d e : Nat, Counters.processedFiles ⟨a, b, d, e⟩ = b
        from fun _ _ _ _ => rfl]
      rw [h2]; omega
    · rw [g3]
      simp only [show ∀ a b d e : Nat, Counters.totalFiles ⟨a, b, d, e⟩ = a
        from fun _ _ _ _ => rfl]
      rw [h3]

/-- The file loop of `transferAndroidFolderToLocal` emits the progress values
`c.processedFiles + 1, …, c.processedFiles + fs.length` in order. -/
theorem pullFilesLoop_progress (pull write : String → Except String Unit)
    (af lf : String) :
    ∀ (fs : List ScanFile) (c : Counters),
      progressSeq (pullFilesLoop pull write af lf fs c).2 =
        List.range' (c.processedFiles + 1) fs.length := by
  intro fs
  induction fs with
  | nil => intro c; simp [pullFilesLoop, progressSeq]
  | cons f fs ih =>
    intro c
    rw [pullFilesLoop]
    rw [progressSeq_cons_pull, progressSeq_cons_progress]
    rw [ih]
    rw [List.length_cons, List.range'_succ]

/-- The directory loop of `transferAndroidFolderToLocal` emits no progress
events. -/
theorem mkdirDirsLoop_no_progress (ex : String → Bool) (af lf : String) :
    ∀ ds : List ScanDir, progressSeq (mkdirDirsLoop ex af lf ds) = [] := by
  intro ds
  induction ds with
  | nil => rfl
  | cons d ds ih =>
    rw [mkdirDirsLoop]
    rw [progressSeq_append]
    rw [ih]
    by_cases h : ex (localJoin lf (d.path.drop af.length)) = true
    · rw [if_pos h]; rfl
    · rw [if_neg h]; rfl

/-- C7.  Across one folder transfer whose scan succeeded and counted `N`
files, the `processed` counters carried by the per-file progress status
events are exactly `1, 2, …, N` — one event per file, no gaps, duplicates or
decreases — in both directions (local→Android with `N` the `countFiles`
total, Android→local with `N` the number of scanned files). -/
theorem C7_progress_exact :
    (∀ (push crd : String → Except String Unit) (rf : List String)
        (lf af : String) (ts : LForest) (n : Nat),
        countFiles rf lf ts = .ok n →
        progressSeq (transferLocalFolderToAndroid push crd rf lf af ts).effects =
          List.range' 1 n) ∧
    (∀ (pull write : String → Except String Unit) (fp : List String)
        (ex : String → Bool) (af lf : String) (ts : AForest) (r : ScanResult),
        listAndroidFilesRecursively fp af ts = .ok r →
        progressSeq
            (transferAndroidFolderToLocal pull write fp ex af lf ts).effects =
          List.range' 1 r.files.length) := by
  constructor
  · intro push crd rf lf af ts n h
    have hn := countFiles_fileCount h
    simp only [transferLocalFolderToAndroid, h]
    rw [progressSeq_cons_status, progressSeq_cons_createDir]
    rw [(processItems_progress push crd ts lf af ⟨n, 0, 0, 0⟩).1]
    rw [hn]
  · intro pull write fp ex af lf ts r h
    simp only [transferAndroidFolderToLocal, h]
    rw [progressSeq_append]
    rw [progressSeq_cons_status, progressSeq_cons_status]
    rw [progressSeq_append]
    rw [mkdirDirsLoop_no_progress]
    rw [pullFilesLoop_progress]
    have hbase : progressSeq (if ex lf = true then ([] : List Effect)
        else [.mkdirLocal lf]) = [] := by
      by_cases hx : ex lf = true
      · rw [if_pos hx]; rfl
      · rw [if_neg hx]; rfl
    rw [hbase]
    rfl

/-- Witness for C7 at concrete transfers: a nested two-file local→Android
transfer emits `[1, 2]`, and a one-file Android→local transfer emits
`[1]`. -/
theorem C7_progress_exact_witness :
    progressSeq (transferLocalFolderToAndroid (fun _ => .ok ())
      (fun _ => .ok ()) [] "/home/u/src" "/sdcard/dest"
      (.cons (.lfile "a")
        (.cons (.ldir "sub" (.cons (.lfile "b") .nil)) .nil))).effects =
      List.range' 1 2 ∧
    progressSeq (transferAndroidFolderToLocal (fun _ => .ok ())
      (fun _ => .ok ()) [] (fun _ => false) "/sdcard/src" "/home/u/dest"
      (.cons (.node "f1" 33279 4 .nil) .nil)).effects =
      List.range' 1 1 :=
  ⟨C7_progress_exact.1 (fun _ => .ok ()) (fun _ => .ok ()) []
     "/home/u/src" "/sdcard/dest"
     (.cons (.lfile "a")
       (.cons (.ldir "sub" (.cons (.lfile "b") .nil)) .nil)) 2 rfl,
   C7_progress_exact.2 (fun _ => .ok ()) (fun _ => .ok ()) []
     (fun _ => false) "/sdcard/src" "/home/u/dest"
     (.cons (.node "f1" 33279 4 .nil) .nil)
     ⟨[⟨"/sdcard/src/f1", "f1", 4⟩], []⟩ rfl⟩

/-- Every event the per-item loop emits is a status, a progress-bar update
or the item's transfer work. -/
theorem transferItemsLoop_shape (doItem : String → Nat × Nat) (total : Nat) :
    ∀ (items : List String) (cur s e : Nat) (ev : UIEvent),
      ev ∈ (transferItemsLoop doItem total items cur s e).2.2 →
      (∃ n, ev = .itemTransfer n) ∨ (∃ m, ev = .status m) ∨
      ∃ p l, ev = .progressBar p l := by
  intro items
  induction items with
  | nil => intro cur s e ev hev; simp [transferItemsLoop] at hev
  | cons name rest ih =>
    intro cur s e ev hev
    rw [transferItemsLoop] at hev
    simp only [List.cons_append, List.nil_append, List.mem_cons] at hev
    rcases hev with h | h | h | h | h
    · exact .inr (.inl ⟨_, h⟩)
    · exact .inr (.inr ⟨_, _, h⟩)
    · exact .inl ⟨_, h⟩
    · exact .inr (.inr ⟨_, _, h⟩)
    · exact ih _ _ _ ev h

/-- C8.  At most one transfer is in flight.  If `state.isTransferring` is
`true` when a transfer button is clicked, the handler performs no transfer
work, leaves the state unchanged, and — when a device is selected and the
selection is nonempty, i.e. when the click would otherwise start a
transfer — rejects with exactly the status "Transfer already in progress".
When the guards pass, the handler's trace sets the flag to `true` before any
other event, never touches the flag during the run, and its `finally` resets
it to `false` (last two events: `flagSet false`, `clearSelections`), leaving
the final state not transferring.  Both directions. -/
theorem C8_guard :
    (∀ (doItem : String → Nat × Nat) (st : UIState),
      st.isTransferring = true →
        (transferToAndroidClick doItem st).1 = st ∧
        (∀ ev ∈ (transferToAndroidClick doItem st).2,
          ev.isItemTransfer = false) ∧
        (st.selectedDevice.isNone = false →
          (st.localSelectedItems.length == 0) = false →
          (transferToAndroidClick doItem st).2 =
            [.status "Transfer already in progress"])) ∧
    (∀ (doItem : String → Nat × Nat) (st : UIState),
      st.isTransferring = true →
        (transferToLocalClick doItem st).1 = st ∧
        (∀ ev ∈ (transferToLocalClick doItem st).2,
          ev.isItemTransfer = false) ∧
        (st.selectedDevice.isNone = false →
          (st.androidSelectedItems.length == 0) = false →
          (transferToLocalClick doItem st).2 =
            [.status "Transfer already in progress"])) ∧
    (∀ (doItem : String → Nat × Nat) (st : UIState),
      st.isTransferring = false →
      st.selectedDevice.isNone = false →
      (st.localSelectedItems.length == 0) = false →
      ∃ mid, (transferToAndroidClick doItem st).2 =
          .flagSet true :: mid ++ [.flagSet false, .clearSelections] ∧
        (∀ b, UIEvent.flagSet b ∉ mid) ∧
        (transferToAndroidClick doItem st).1.isTransferring = false) ∧
    (∀ (doItem : String → Nat × Nat) (st : UIState),
      st.isTransferring = false →
      st.selectedDevice.isNone = false →
      (st.androidSelectedItems.length == 0) = false →
      ∃ mid, (transferToLocalClick doItem st).2 =
          .flagSet true :: mid ++ [.flagSet false, .clearSelections] ∧
        (∀ b, UIEvent.flagSet b ∉ mid) ∧
        (transferToLocalClick doItem st).1.isTransferring = false) := by
  refine ⟨?_, ?_, ?_, ?_⟩
  · intro doItem st h
    rw [transferToAndroidClick]
    by_cases hd : st.selectedDevice.isNone = true
    · rw [if_pos hd]
      refine ⟨rfl, ?_, ?_⟩
      · intro ev hev; simp at hev; subst hev; rfl
      · intro hs _; rw [hd] at hs; cases hs
    · rw [if_neg hd]
      by_cases hl : (st.localSelectedItems.length == 0) = true
      · rw [if_pos hl]
        refine ⟨rfl, ?_, ?_⟩
        · intro ev hev; simp at hev; subst hev; rfl
        · intro _ hs; rw [hl] at hs; cases hs
      · rw [if_neg hl, if_pos h]
        refine ⟨rfl, ?_, fun _ _ => rfl⟩
        intro ev hev; simp at hev; subst hev; rfl
  · intro doItem st h
    rw [transferToLocalClick]
    by_cases hd : st.selectedDevice.isNone = true
    · rw [if_pos hd]
      refine ⟨rfl, ?_, ?_⟩
      · intro ev hev; simp at hev; subst hev; rfl
      · intro hs _; rw [hd] at hs; cases hs
    · rw [if_neg hd]
      by_cases hl : (st.androidSelectedItems.length == 0) = true
      · rw [if_pos hl]
        refine ⟨rfl, ?_, ?_⟩
        · intro ev hev; simp at hev; subst hev; rfl
        · intro _ hs; rw [hl] at hs; cases hs
      · rw [if_neg hl, if_pos h]
        refine ⟨rfl, ?_, fun _ _ => rfl⟩
        intro ev hev; simp at hev; subst hev; rfl
  · intro doItem st h hd hl
    rw [transferToAndroidClick]
    rw [if_neg (by simp [hd]), if_neg (by simp [hl]), if_neg (by simp [h])]
    refine ⟨UIEvent.status "Preparing transfer to Android..." ::
      (transferItemsLoop doItem st.localSelectedItems.length
        st.localSelectedItems 0 0 0).2.2 ++
      [.progressBar 100 "Complete",
       .status ("Transfer complete. Success: " ++
         toString (transferItemsLoop doItem st.localSelectedItems.length
           st.localSelectedItems 0 0 0).1 ++ ", Errors: " ++
         toString (transferItemsLoop doItem st.localSelectedItems.length
           st.localSelectedItems 0 0 0).2.1),
       .refreshViews,
       .status "Transfer completed and views refreshed"], ?_, ?_, rfl⟩
    · rw [transferRunEvents]
      simp [List.append_assoc]
    · intro b hb
      rcases List.mem_cons.mp hb with h1 | h1
      · cases h1
      rcases List.mem_append.mp h1 with h2 | h2
      · rcases transferItemsLoop_shape doItem _ _ _ _ _ _ h2 with
          ⟨n, hn⟩ | ⟨m, hm⟩ | ⟨p, l, hp⟩
        · cases hn
        · cases hm
        · cases hp
      · simp at h2
  · intro doItem st h hd hl
    rw [transferToLocalClick]
    rw [if_neg (by simp [hd]), if_neg (by simp [hl]), if_neg (by simp [h])]
    refine ⟨UIEvent.status "Preparing transfer to local..." ::
      (transferItemsLoop doItem st.androidSelectedItems.length
        st.androidSelectedItems 0 0 0).2.2 ++
      [.progressBar 100 "Complete",
       .status ("Transfer complete. Success: " ++
         toString (transferItemsLoop doItem st.androidSelectedItems.length
           st.androidSelectedItems 0 0 0).1 ++ ", Errors: " ++
         toString (transferItemsLoop doItem st.androidSelectedItems.length
           st.androidSelectedItems 0 0 0).2.1),
       .refreshViews,
       .status "Transfer completed and views refreshed"], ?_, ?_, rfl⟩
    · rw [transferRunEvents]
      simp [List.append_assoc]
    · intro b hb
      rcases List.mem_cons.mp hb with h1 | h1
      · cases h1
      rcases List.mem_append.mp h1 with h2 | h2
      · rcases transferItemsLoop_shape doItem _ _ _ _ _ _ h2 with
          ⟨n, hn⟩ | ⟨m, hm⟩ | ⟨p, l, hp⟩
        · cases hn
        · cases hm
        · cases hp
      · simp at h2
/-- Witness for C8: a busy state rejects both buttons with the exact status,
and a full run ends not transferring. -/
theorem C8_guard_witness :
    (transferToAndroidClick (fun _ => (1, 0))
      ⟨some "dev", "/h", "/s", ["a"], ["b"], true⟩).2 =
      [.status "Transfer already in progress"] ∧
    (transferToLocalClick (fun _ => (1, 0))
      ⟨some "dev", "/h", "/s", ["a"], ["b"], true⟩).2 =
      [.status "Transfer already in progress"] ∧
    (transferToAndroidClick (fun _ => (1, 0))
      ⟨some "dev", "/h", "/s", ["a"], [], false⟩).1.isTransferring = false := by
  refine ⟨(C8_guard.1 (fun _ => (1, 0))
      ⟨some "dev", "/h", "/s", ["a"], ["b"], true⟩ rfl).2.2 rfl rfl,
    (C8_guard.2.1 (fun _ => (1, 0))
      ⟨some "dev", "/h", "/s", ["a"], ["b"], true⟩ rfl).2.2 rfl rfl, ?_⟩
  obtain ⟨mid, hmid, hnf, hflag⟩ := C8_guard.2.2.1 (fun _ => (1, 0))
    ⟨some "dev", "/h", "/s", ["a"], [], false⟩ rfl rfl rfl
  exact hflag

/-- C9 counterexample.  The claim says both selection sets are cleared at the
*start* of the transfer and again at its end.  They are not cleared at the
start: in this concrete run the per-item transfer work (trace index 4)
happens before the only `clearSelections` call (trace index 11), and no
`clearSelections` occurs at or before the work. -/
theorem C9_counterexample_not_cleared_at_start :
    (transferToAndroidClick (fun _ => (1, 0))
      ⟨some "dev", "/h", "/s", ["a"], [], false⟩).2.get? 4 =
      some (.itemTransfer "a") ∧
    (transferToAndroidClick (fun _ => (1, 0))
      ⟨some "dev", "/h", "/s", ["a"], [], false⟩).2.get? 11 =
      some .clearSelections ∧
    ∀ k, k ≤ 4 →
      (transferToAndroidClick (fun _ => (1, 0))
        ⟨some "dev", "/h", "/s", ["a"], [], false⟩).2.get? k ≠
        some .clearSelections := by
  refine ⟨by decide, by decide, by decide⟩

/-- C9 (amended).  Both selection sets are cleared at the *end* of every
transfer (the `finally` block runs `clearSelections()`, the last event of
the trace, and the final state has both sets empty); they are not cleared at
the start — the handler iterates over the selection captured at click time.
Both directions. -/
theorem C9_cleared_at_end :
    (∀ (doItem : String → Nat × Nat) (st : UIState),
      st.isTransferring = false →
      st.selectedDevice.isNone = false →
      (st.localSelectedItems.length == 0) = false →
      (transferToAndroidClick doItem st).1.localSelectedItems = [] ∧
      (transferToAndroidClick doItem st).1.androidSelectedItems = [] ∧
      ∃ pre, (transferToAndroidClick doItem st).2 = pre ++ [.clearSelections] ∧
        UIEvent.clearSelections ∉ pre) ∧
    (∀ (doItem : String → Nat × Nat) (st : UIState),
      st.isTransferring = false →
      st.selectedDevice.isNone = false →
      (st.androidSelectedItems.length == 0) = false →
      (transferToLocalClick doItem st).1.localSelectedItems = [] ∧
      (transferToLocalClick doItem st).1.androidSelectedItems = [] ∧
      ∃ pre, (transferToLocalClick doItem st).2 = pre ++ [.clearSelections] ∧
        UIEvent.clearSelections ∉ pre) := by
  constructor
  · intro doItem st h hd hl
    rw [transferToAndroidClick]
    rw [if_neg (by simp [hd]), if_neg (by simp [hl]), if_neg (by simp [h])]
    refine ⟨rfl, rfl, UIEvent.flagSet true ::
      UIEvent.status "Preparing transfer to Android..." ::
      (transferItemsLoop doItem st.localSelectedItems.length
        st.localSelectedItems 0 0 0).2.2 ++
      [.progressBar 100 "Complete",
       .status ("Transfer complete. Success: " ++
         toString (transferItemsLoop doItem st.localSelectedItems.length
           st.localSelectedItems 0 0 0).1 ++ ", Errors: " ++
         toString (transferItemsLoop doItem st.localSelectedItems.length
           st.localSelectedItems 0 0 0).2.1),
       .refreshViews,
       .status "Transfer completed and views refreshed",
       .flagSet false], ?_, ?_⟩
    · rw [transferRunEvents]
      simp [List.append_assoc]
    · intro hb
      rcases List.mem_cons.mp hb with h1 | h1
      · cases h1
      rcases List.mem_cons.mp h1 with h2 | h2
      · cases h2
      rcases List.mem_append.mp h2 with h3 | h3
      · rcases transferItemsLoop_shape doItem _ _ _ _ _ _ h3 with
          ⟨n, hn⟩ | ⟨m, hm⟩ | ⟨p, l, hp⟩
        · cases hn
        · cases hm
        · cases hp
      · simp at h3
  · intro doItem st h hd hl
    rw [transferToLocalClick]
    rw [if_neg (by simp [hd]), if_neg (by simp [hl]), if_neg (by simp [h])]
    refine ⟨rfl, rfl, UIEvent.flagSet true ::
      UIEvent.status "Preparing transfer to local..." ::
      (transferItemsLoop doItem st.androidSelectedItems.length
        st.androidSelectedItems 0 0 0).2.2 ++
      [.progressBar 100 "Complete",
       .status ("Transfer complete. Success: " ++
         toString (transferItemsLoop doItem st.androidSelectedItems.length
           st.androidSelectedItems 0 0 0).1 ++ ", Errors: " ++
         toString (transferItemsLoop doItem st.androidSelectedItems.length
           st.androidSelectedItems 0 0 0).2.1),
       .refreshViews,
       .status "Transfer completed and views refreshed",
       .flagSet false], ?_, ?_⟩
    · rw [transferRunEvents]
      simp [List.append_assoc]
    · intro hb
      rcases List.mem_cons.mp hb with h1 | h1
      · cases h1
      rcases List.mem_cons.mp h1 with h2 | h2
      · cases h2
      rcases List.mem_append.mp h2 with h3 | h3
      · rcases transferItemsLoop_shape doItem _ _ _ _ _ _ h3 with
          ⟨n, hn⟩ | ⟨m, hm⟩ | ⟨p, l, hp⟩
        · cases hn
        · cases hm
        · cases hp
      · simp at h3

/-- Witness for C9 (amended) at concrete runs of both handlers. -/
theorem C9_cleared_at_end_witness :
    (transferToAndroidClick (fun _ => (1, 0))
      ⟨some "dev", "/h", "/s", ["a"], ["b"], false⟩).1.localSelectedItems = [] ∧
    (transferToAndroidClick (fun _ => (1, 0))
      ⟨some "dev", "/h", "/s", ["a"], ["b"], false⟩).1.androidSelectedItems = [] ∧
    (transferToLocalClick (fun _ => (1, 0))
      ⟨some "dev", "/h", "/s", ["a"], ["b"], false⟩).1.androidSelectedItems = [] := by
  obtain ⟨ha, hb, -⟩ := C9_cleared_at_end.1 (fun _ => (1, 0))
    ⟨some "dev", "/h", "/s", ["a"], ["b"], false⟩ rfl rfl rfl
  obtain ⟨-, hc, -⟩ := C9_cleared_at_end.2 (fun _ => (1, 0))
    ⟨some "dev", "/h", "/s", ["a"], ["b"], false⟩ rfl rfl rfl
  exact ⟨ha, hb, hc⟩

/-! Ordering of effects: index helpers, shape lemmas, and the
parent-before-child development. -/

theorem get?_some_lt {α : Type} {l : List α} {n : Nat} {a : α}
    (h : l.get? n = some a) : n < l.length := by
  by_contra hn
  push_neg at hn
  rw [List.get?_eq_none.mpr hn] at h
  cases h

theorem get?_append_left_of {α : Type} {A B : List α} {j : Nat} {e : α}
    (h : A.get? j = some e) : (A ++ B).get? j = some e := by
  rw [List.get?_append (get?_some_lt h)]
  exact h

theorem get?_append_right_of {α : Type} {A B : List α} {j : Nat} {e : α}
    (h : B.get? j = some e) : (A ++ B).get? (A.length + j) = some e := by
  rw [List.get?_append_right (Nat.le_add_right _ _)]
  simpa [Nat.add_sub_cancel_left] using h

theorem index_lt_of_pred {α : Type} {A B : List α} {i : Nat} {e : α}
    {P : α → Bool}
    (h : (A ++ B).get? i = some e) (hPe : P e = true)
    (hB : ∀ x ∈ B, P x = false) : i < A.length := by
  by_contra hn
  push_neg at hn
  rw [List.get?_append_right hn] at h
  have hm := List.get?_mem h
  have := hB e hm
  rw [hPe] at this
  cases this

theorem index_ge_of_pred {α : Type} {A B : List α} {j : Nat} {e : α}
    {Q : α → Bool}
    (h : (A ++ B).get? j = some e) (hQe : Q e = true)
    (hA : ∀ x ∈ A, Q x = false) : A.length ≤ j := by
  by_contra hn
  push_neg at hn
  rw [List.get?_append hn] at h
  have := hA e (List.get?_mem h)
  rw [hQe] at this
  cases this

/-- Every effect of the directory loop is a local `mkdirSync`. -/
theorem mkdirDirsLoop_shape (ex : String → Bool) (af lf : String) :
    ∀ ds : List ScanDir, ∀ e ∈ mkdirDirsLoop ex af lf ds,
      e.isMkdirLocal = true ∧ e.isPullFile = false := by
  intro ds
  induction ds with
  | nil => intro e he; simp [mkdirDirsLoop] at he
  | cons d ds ih =>
    intro e he
    rw [mkdirDirsLoop] at he
    rcases List.mem_append.mp he with h | h
    · by_cases hx : ex (localJoin lf (d.path.drop af.length)) = true
      · rw [if_pos hx] at h; simp at h
      · rw [if_neg hx] at h
        simp at h
        subst h
        exact ⟨rfl, rfl⟩
    · exact ih e h

/-- The file loop neither creates directories nor pushes. -/
theorem pullFilesLoop_shape (pull write : String → Except String Unit)
    (af lf : String) :
    ∀ (fs : List ScanFile) (c : Counters),
      ∀ e ∈ (pullFilesLoop pull write af lf fs c).2,
        e.isMkdirLocal = false ∧ e.isPushFile = false ∧
        e.isCreateDirAndroid = false := by
  intro fs
  induction fs with
  | nil => intro c e he; simp [pullFilesLoop] at he
  | cons f fs ih =>
    intro c e he
    rw [pullFilesLoop] at he
    rcases List.mem_cons.mp he with h | h
    · subst h; exact ⟨rfl, rfl, rfl⟩
    rcases List.mem_cons.mp h with h | h
    · subst h; exact ⟨rfl, rfl, rfl⟩
    · exact ih _ e h

/-- Every file of the forest is pushed somewhere in `processDirectory`'s
trace. -/
theorem processItems_push_exists (push crd : String → Except String Unit) :
    ∀ {ad : String} {ts : LForest} {q : String}, LFilePath ad ts q →
      ∀ (ld : String) (c : Counters),
        ∃ j lp r, (processItems push crd ld ad ts c).2.get? j =
          some (.pushFile lp q r) := by
  intro ad ts q h
  induction h with
  | head ad name ts =>
    intro ld c
    refine ⟨0, hostJoin ld name, pushFileHandler (push (ad ++ "/" ++ name)), ?_⟩
    rw [processItems]
    rfl
  | @inside ad name cs q ts hsub ih =>
    intro ld c
    obtain ⟨j, lp, r, hj⟩ := ih (hostJoin ld name) c
    refine ⟨j + 1, lp, r, ?_⟩
    rw [processItems, List.get?_cons_succ]
    exact get?_append_left_of hj
  | @tail ad ts q t htl ih =>
    intro ld c
    cases t with
    | lfile n =>
      obtain ⟨j, lp, r, hj⟩ := ih ld
        ⟨c.totalFiles, c.processedFiles + 1, c.successCount + 1, c.errorCount⟩
      refine ⟨j + 1 + 1, lp, r, ?_⟩
      rw [processItems, List.get?_cons_succ, List.get?_cons_succ]
      exact hj
    | ldir n cs =>
      obtain ⟨j, lp, r, hj⟩ := ih ld
        ⟨(processItems push crd (hostJoin ld n) (ad ++ "/" ++ n) cs c).1.totalFiles,
         (processItems push crd (hostJoin ld n) (ad ++ "/" ++ n) cs c).1.processedFiles,
         (processItems push crd (hostJoin ld n) (ad ++ "/" ++ n) cs c).1.successCount +
           (processItems push crd (hostJoin ld n) (ad ++ "/" ++ n) cs c).1.successCount,
         (processItems push crd (hostJoin ld n) (ad ++ "/" ++ n) cs c).1.errorCount +
           (processItems push crd (hostJoin ld n) (ad ++ "/" ++ n) cs c).1.errorCount⟩
      refine ⟨(processItems push crd (hostJoin ld n) (ad ++ "/" ++ n) cs c).2.length
        + j + 1, lp, r, ?_⟩
      rw [processItems, List.get?_cons_succ]
      exact get?_append_right_of hj

/-- Every directory of the forest is created somewhere in
`processDirectory`'s trace. -/
theorem processItems_create_exists (push crd : String → Except String Unit) :
    ∀ {ad : String} {ts : LForest} {q : String}, LDirPath ad ts q →
      ∀ (ld : String) (c : Counters),
        ∃ j r, (processItems push crd ld ad ts c).2.get? j =
          some (.createDirAndroid q r) := by
  intro ad ts q h
  induction h with
  | head ad name cs ts =>
    intro ld c
    refine ⟨0, createDirectoryHandler (crd (ad ++ "/" ++ name)), ?_⟩
    rw [processItems]
    rfl
  | @inside ad name cs q ts hsub ih =>
    intro ld c
    obtain ⟨j, r, hj⟩ := ih (hostJoin ld name) c
    refine ⟨j + 1, r, ?_⟩
    rw [processItems, List.get?_cons_succ]
    exact get?_append_left_of hj
  | @tail ad ts q t htl ih =>
    intro ld c
    cases t with
    | lfile n =>
      obtain ⟨j, r, hj⟩ := ih ld
        ⟨c.totalFiles, c.processedFiles + 1, c.successCount + 1, c.errorCount⟩
      refine ⟨j + 1 + 1, r, ?_⟩
      rw [processItems, List.get?_cons_succ, List.get?_cons_succ]
      exact hj
    | ldir n cs =>
      obtain ⟨j, r, hj⟩ := ih ld
        ⟨(processItems push crd (hostJoin ld n) (ad ++ "/" ++ n) cs c).1.totalFiles,
         (processItems push crd (hostJoin ld n) (ad ++ "/" ++ n) cs c).1.processedFiles,
         (processItems push crd (hostJoin ld n) (ad ++ "/" ++ n) cs c).1.successCount +
           (processItems push crd (hostJoin ld n) (ad ++ "/" ++ n) cs c).1.successCount,
         (processItems push crd (hostJoin ld n) (ad ++ "/" ++ n) cs c).1.errorCount +
           (processItems push crd (hostJoin ld n) (ad ++ "/" ++ n) cs c).1.errorCount⟩
      refine ⟨(processItems push crd (hostJoin ld n) (ad ++ "/" ++ n) cs c).2.length
        + j + 1, r, ?_⟩
      rw [processItems, List.get?_cons_succ]
      exact get?_append_right_of hj

/-- In `processDirectory`'s trace, a directory's `create-directory` invoke
precedes the `push-file` invoke of every file nested inside it. -/
theorem processItems_create_before_nested_push
    (push crd : String → Except String Unit) :
    ∀ {ad : String} {ts : LForest} {p q : String}, LNestedFile ad ts p q →
      ∀ (ld : String) (c : Counters),
        ∃ i j rc lp rp, i < j ∧
          (processItems push crd ld ad ts c).2.get? i =
            some (.createDirAndroid p rc) ∧
          (processItems push crd ld ad ts c).2.get? j =
            some (.pushFile lp q rp) := by
  intro ad ts p q h
  induction h with
  | @here ad name cs q ts hfile =>
    intro ld c
    obtain ⟨j, lp, rp, hj⟩ :=
      processItems_push_exists push crd hfile (hostJoin ld name) c
    refine ⟨0, j + 1, createDirectoryHandler (crd (ad ++ "/" ++ name)), lp, rp,
      Nat.succ_pos j, ?_, ?_⟩
    · rw [processItems]; rfl
    · rw [processItems, List.get?_cons_succ]
      exact get?_append_left_of hj
  | @inside ad name cs p q ts hsub ih =>
    intro ld c
    obtain ⟨i, j, rc, lp, rp, hij, hi, hj⟩ := ih (hostJoin ld name) c
    refine ⟨i + 1, j + 1, rc, lp, rp, by omega, ?_, ?_⟩
    · rw [processItems, List.get?_cons_succ]
      exact get?_append_left_of hi
    · rw [processItems, List.get?_cons_succ]
      exact get?_append_left_of hj
  | @tail ad ts p q t htl ih =>
    intro ld c
    cases t with
    | lfile n =>
      obtain ⟨i, j, rc, lp, rp, hij, hi, hj⟩ := ih ld
        ⟨c.totalFiles, c.processedFiles + 1, c.successCount + 1, c.errorCount⟩
      refine ⟨i + 1 + 1, j + 1 + 1, rc, lp, rp, by omega, ?_, ?_⟩
      · rw [processItems, List.get?_cons_succ, List.get?_cons_succ]
        exact hi
      · rw [processItems, List.get?_cons_succ, List.get?_cons_succ]
        exact hj
    | ldir n cs =>
      obtain ⟨i, j, rc, lp, rp, hij, hi, hj⟩ := ih ld
        ⟨(processItems push crd (hostJoin ld n) (ad ++ "/" ++ n) cs c).1.totalFiles,
         (processItems push crd (hostJoin ld n) (ad ++ "/" ++ n) cs c).1.processedFiles,
         (processItems push crd (hostJoin ld n) (ad ++ "/" ++ n) cs c).1.successCount +
           (processItems push crd (hostJoin ld n) (ad ++ "/" ++ n) cs c).1.successCount,
         (processItems push crd (hostJoin ld n) (ad ++ "/" ++ n) cs c).1.errorCount +
           (processItems push crd (hostJoin ld n) (ad ++ "/" ++ n) cs c).1.errorCount⟩
      refine ⟨(processItems push crd (hostJoin ld n) (ad ++ "/" ++ n) cs c).2.length
          + i + 1,
        (processItems push crd (hostJoin ld n) (ad ++ "/" ++ n) cs c).2.length
          + j + 1, rc, lp, rp, by omega, ?_, ?_⟩
      · rw [processItems, List.get?_cons_succ]
        exact get?_append_right_of hi
      · rw [processItems, List.get?_cons_succ]
        exact get?_append_right_of hj

/-- In `processDirectory`'s trace, a directory's `create-directory` invoke
precedes the `create-directory` invoke of every directory nested inside
it. -/
theorem processItems_create_before_nested_create
    (push crd : String → Except String Unit) :
    ∀ {ad : String} {ts : LForest} {p q : String}, LNestedDir ad ts p q →
      ∀ (ld : String) (c : Counters),
        ∃ i j rc rq, i < j ∧
          (processItems push crd ld ad ts c).2.get? i =
            some (.createDirAndroid p rc) ∧
          (processItems push crd ld ad ts c).2.get? j =
            some (.createDirAndroid q rq) := by
  intro ad ts p q h
  induction h with
  | @here ad name cs q ts hdir =>
    intro ld c
    obtain ⟨j, rq, hj⟩ :=
      processItems_create_exists push crd hdir (hostJoin ld name) c
    refine ⟨0, j + 1, createDirectoryHandler (crd (ad ++ "/" ++ name)), rq,
      Nat.succ_pos j, ?_, ?_⟩
    · rw [processItems]; rfl
    · rw [processItems, List.get?_cons_succ]
      exact get?_append_left_of hj
  | @inside ad name cs p q ts hsub ih =>
    intro ld c
    obtain ⟨i, j, rc, rq, hij, hi, hj⟩ := ih (hostJoin ld name) c
    refine ⟨i + 1, j + 1, rc, rq, by omega, ?_, ?_⟩
    · rw [processItems, List.get?_cons_succ]
      exact get?_append_left_of hi
    · rw [processItems, List.get?_cons_succ]
      exact get?_append_left_of hj
  | @tail ad ts p q t htl ih =>
    intro ld c
    cases t with
    | lfile n =>
      obtain ⟨i, j, rc, rq, hij, hi, hj⟩ := ih ld
        ⟨c.totalFiles, c.processedFiles + 1, c.successCount + 1, c.errorCount⟩
      refine ⟨i + 1 + 1, j + 1 + 1, rc, rq, by omega, ?_, ?_⟩
      · rw [processItems, List.get?_cons_succ, List.get?_cons_succ]
        exact hi
      · rw [processItems, List.get?_cons_succ, List.get?_cons_succ]
        exact hj
    | ldir n cs =>
      obtain ⟨i, j, rc, rq, hij, hi, hj⟩ := ih ld
        ⟨(processItems push crd (hostJoin ld n) (ad ++ "/" ++ n) cs c).1.totalFiles,
         (processItems push crd (hostJoin ld n) (ad ++ "/" ++ n) cs c).1.processedFiles,
         (processItems push crd (hostJoin ld n) (ad ++ "/" ++ n) cs c).1.successCount +
           (processItems push crd (hostJoin ld n) (ad ++ "/" ++ n) cs c).1.successCount,
         (processItems push crd (hostJoin ld n) (ad ++ "/" ++ n) cs c).1.errorCount +
           (processItems push crd (hostJoin ld n) (ad ++ "/" ++ n) cs c).1.errorCount⟩
      refine ⟨(processItems push crd (hostJoin ld n) (ad ++ "/" ++ n) cs c).2.length
          + i + 1,
        (processItems push crd (hostJoin ld n) (ad ++ "/" ++ n) cs c).2.length
          + j + 1, rc, rq, by omega, ?_, ?_⟩
      · rw [processItems, List.get?_cons_succ]
        exact get?_append_right_of hi
      · rw [processItems, List.get?_cons_succ]
        exact get?_append_right_of hj

/-- In `transferAndroidFolderToLocal`'s trace every local directory creation
precedes every file pull: the executor runs the whole directory pass before
the file pass. -/
theorem android_mkdir_before_pull
    (pull write : String → Except String Unit) (fp : List String)
    (ex : String → Bool) (af lf : String) (ts : AForest) (r : ScanResult)
    (h : listAndroidFilesRecursively fp af ts = .ok r) :
    ∀ i j ei ej,
      (transferAndroidFolderToLocal pull write fp ex af lf ts).effects.get? i =
        some ei →
      ei.isMkdirLocal = true →
      (transferAndroidFolderToLocal pull write fp ex af lf ts).effects.get? j =
        some ej →
      ej.isPullFile = true → i < j := by
  intro i j ei ej hi hpi hj hpj
  have htr : (transferAndroidFolderToLocal pull write fp ex af lf ts).effects =
      ((if ex lf = true then ([] : List Effect) else [.mkdirLocal lf]) ++
        (Effect.status "Scanning Android folder structure..." ::
         Effect.status ("Preparing to transfer " ++ toString r.files.length ++
           " files from Android...") ::
         mkdirDirsLoop ex af lf r.directories)) ++
      (pullFilesLoop pull write af lf r.files
        ⟨r.files.length, 0, 0, 0⟩).2 := by
    simp only [transferAndroidFolderToLocal, h]
    simp [List.append_assoc]
  rw [htr] at hi hj
  have hB : ∀ x ∈ (pullFilesLoop pull write af lf r.files
      ⟨r.files.length, 0, 0, 0⟩).2, Effect.isMkdirLocal x = false :=
    fun x hx => (pullFilesLoop_shape pull write af lf r.files _ x hx).1
  have hA : ∀ x ∈ (if ex lf = true then ([] : List Effect)
      else [.mkdirLocal lf]) ++
      (Effect.status "Scanning Android folder structure..." ::
       Effect.status ("Preparing to transfer " ++ toString r.files.length ++
         " files from Android...") ::
       mkdirDirsLoop ex af lf r.directories),
      Effect.isPullFile x = false := by
    intro x hx
    rcases List.mem_append.mp hx with h1 | h1
    · by_cases hx2 : ex lf = true
      · rw [if_pos hx2] at h1; simp at h1
      · rw [if_neg hx2] at h1
        simp at h1
        subst h1; rfl
    · rcases List.mem_cons.mp h1 with h2 | h2
      · subst h2; rfl
      rcases List.mem_cons.mp h2 with h3 | h3
      · subst h3; rfl
      · exact (mkdirDirsLoop_shape ex af lf r.directories x h3).2
  have h1 := index_lt_of_pred hi hpi hB
  have h2 := index_ge_of_pred hj hpj hA
  omega

/-- Every directory reached by the scan appears in the collected
`directories`. -/
theorem scan_dir_mem {fp : List String} :
    ∀ {base : String} {ts : AForest} {q : String}, AScanDir base ts q →
      ∀ {r : ScanResult}, scanItems fp base ts = .ok r →
        q ∈ r.directories.map (fun d => d.path) := by
  intro base ts q h
  induction h with
  | @head base name mode size cs ts hm =>
    intro r hr
    obtain ⟨-, sub, rest, -, -, hreq⟩ := scanItems_cons_dir_ok hm hr
    subst hreq
    simp
  | @inside base name mode size cs q ts hm hsub ih =>
    intro r hr
    obtain ⟨-, sub, rest, hs, -, hreq⟩ := scanItems_cons_dir_ok hm hr
    subst hreq
    have hq := ih hs
    simp only [List.map_cons, List.map_append, List.mem_cons, List.mem_append]
    exact .inr (.inl hq)
  | @tail base ts q t htl ih =>
    intro r hr
    cases t with
    | node n m s cs =>
      by_cases hm : isDirMode m = true
      · obtain ⟨-, sub, rest, -, hrest, hreq⟩ := scanItems_cons_dir_ok hm hr
        subst hreq
        have hq := ih hrest
        simp only [List.map_cons, List.map_append, List.mem_cons, List.mem_append]
        exact .inr (.inr hq)
      · have hm' : isDirMode m = false := by simpa using hm
        obtain ⟨rest, hrest, hreq⟩ := scanItems_cons_file_ok hm' hr
        subst hreq
        have hq := ih hrest
        exact hq

/-- Every file reached by the scan appears in the collected `files`. -/
theorem scan_file_mem {fp : List String} :
    ∀ {base : String} {ts : AForest} {q : String}, AScanFile base ts q →
      ∀ {r : ScanResult}, scanItems fp base ts = .ok r →
        q ∈ r.files.map (fun f => f.path) := by
  intro base ts q h
  induction h with
  | @head base name mode size cs ts hm =>
    intro r hr
    obtain ⟨rest, -, hreq⟩ := scanItems_cons_file_ok hm hr
    subst hreq
    simp
  | @inside base name mode size cs q ts hm hsub ih =>
    intro r hr
    obtain ⟨-, sub, rest, hs, -, hreq⟩ := scanItems_cons_dir_ok hm hr
    subst hreq
    have hq := ih hs
    simp only [List.map_append, List.mem_append]
    exact .inl hq
  | @tail base ts q t htl ih =>
    intro r hr
    cases t with
    | node n m s cs =>
      by_cases hm : isDirMode m = true
      · obtain ⟨-, sub, rest, -, hrest, hreq⟩ := scanItems_cons_dir_ok hm hr
        subst hreq
        have hq := ih hrest
        simp only [List.map_append, List.mem_append]
        exact .inr hq
      · have hm' : isDirMode m = false := by simpa using hm
        obtain ⟨rest, hrest, hreq⟩ := scanItems_cons_file_ok hm' hr
        subst hreq
        have hq := ih hrest
        simp only [List.map_cons, List.mem_cons]
        exact .inr hq

/-- In the scan's `directories` list a parent directory's entry precedes the
entry of every directory nested inside it. -/
theorem scan_parent_dir_before_child {fp : List String} :
    ∀ {base : String} {ts : AForest} {p q : String}, ANestedDir base ts p q →
      ∀ {r : ScanResult}, scanItems fp base ts = .ok r →
        [p, q].Sublist (r.directories.map (fun d => d.path)) := by
  intro base ts p q h
  induction h with
  | @here base name mode size cs q ts hm hdir =>
    intro r hr
    obtain ⟨-, sub, rest, hs, -, hreq⟩ := scanItems_cons_dir_ok hm hr
    subst hreq
    have hq := scan_dir_mem hdir hs
    simp only [List.map_cons, List.map_append]
    exact List.Sublist.cons₂ _
      (List.singleton_sublist.mpr (List.mem_append_left _ hq))
  | @inside base name mode size cs p q ts hm hsub ih =>
    intro r hr
    obtain ⟨-, sub, rest, hs, -, hreq⟩ := scanItems_cons_dir_ok hm hr
    subst hreq
    have hpq := ih hs
    simp only [List.map_cons, List.map_append]
    exact List.Sublist.cons _
      (hpq.trans (List.sublist_append_left _ _))
  | @tail base ts p q t htl ih =>
    intro r hr
    cases t with
    | node n m s cs =>
      by_cases hm : isDirMode m = true
      · obtain ⟨-, sub, rest, -, hrest, hreq⟩ := scanItems_cons_dir_ok hm hr
        subst hreq
        have hpq := ih hrest
        simp only [List.map_cons, List.map_append]
        exact List.Sublist.cons _
          (hpq.trans (List.sublist_append_right _ _))
      · have hm' : isDirMode m = false := by simpa using hm
        obtain ⟨rest, hrest, hreq⟩ := scanItems_cons_file_ok hm' hr
        subst hreq
        have hq := ih hrest
        exact hq

/-- A nested file's containing directory is collected in `directories` and
the file in `files`; the executor processes all of `directories` before all
of `files`. -/
theorem scan_nested_file_in_plan {fp : List String} :
    ∀ {base : String} {ts : AForest} {p q : String}, ANestedFile base ts p q →
      ∀ {r : ScanResult}, scanItems fp base ts = .ok r →
        p ∈ r.directories.map (fun d => d.path) ∧
        q ∈ r.files.map (fun f => f.path) := by
  intro base ts p q h
  induction h with
  | @here base name mode size cs q ts hm hfile =>
    intro r hr
    obtain ⟨-, sub, rest, hs, -, hreq⟩ := scanItems_cons_dir_ok hm hr
    subst hreq
    have hq := scan_file_mem hfile hs
    constructor
    · simp
    · simp only [List.map_append, List.mem_append]
      exact .inl hq
  | @inside base name mode size cs p q ts hm hsub ih =>
    intro r hr
    obtain ⟨-, sub, rest, hs, -, hreq⟩ := scanItems_cons_dir_ok hm hr
    subst hreq
    obtain ⟨hp, hq⟩ := ih hs
    constructor
    · simp only [List.map_cons, List.map_append, List.mem_cons, List.mem_append]
      exact .inr (.inl hp)
    · simp only [List.map_append, List.mem_append]
      exact .inl hq
  | @tail base ts p q t htl ih =>
    intro r hr
    cases t with
    | node n m s cs =>
      by_cases hm : isDirMode m = true
      · obtain ⟨-, sub, rest, -, hrest, hreq⟩ := scanItems_cons_dir_ok hm hr
        subst hreq
        obtain ⟨hp, hq⟩ := ih hrest
        constructor
        · simp only [List.map_cons, List.map_append, List.mem_cons,
            List.mem_append]
          exact .inr (.inr hp)
        · simp only [List.map_append, List.mem_append]
          exact .inr hq
      · have hm' : isDirMode m = false := by simpa using hm
        obtain ⟨rest, hrest, hreq⟩ := scanItems_cons_file_ok hm' hr
        subst hreq
        obtain ⟨hp, hq⟩ := ih hrest
        constructor
        · exact hp
        · simp only [List.map_cons, List.mem_cons]
          exact .inr hq

/-- C3 (amended).  Android→local: the plan lists all directories apart from
all files and the executor processes the whole directory pass before the
file pass, so in the trace every directory creation precedes every file
pull.  Local→Android: there is no such phase separation —
`processDirectory` interleaves directory creations with file pushes in
listing order (see the counterexample) — but every directory on a file's
path is still created before that file is pushed: for every directory `p`
containing a nested file `q`, the `create-directory` invoke of `p` precedes
the `push-file` invoke of `q` in the transfer's trace. -/
theorem C3_ordering :
    (∀ (pull write : String → Except String Unit) (fp : List String)
        (ex : String → Bool) (af lf : String) (ts : AForest) (r : ScanResult),
        listAndroidFilesRecursively fp af ts = .ok r →
        ∀ i j ei ej,
          (transferAndroidFolderToLocal pull write fp ex af lf ts).effects.get?
            i = some ei →
          ei.isMkdirLocal = true →
          (transferAndroidFolderToLocal pull write fp ex af lf ts).effects.get?
            j = some ej →
          ej.isPullFile = true → i < j) ∧
    (∀ (push crd : String → Except String Unit) (rf : List String)
        (lf af : String) (ts : LForest) (n : Nat) (p q : String),
        countFiles rf lf ts = .ok n →
        LNestedFile af ts p q →
        ∃ i j rc lp rp, i < j ∧
          (transferLocalFolderToAndroid push crd rf lf af ts).effects.get? i =
            some (.createDirAndroid p rc) ∧
          (transferLocalFolderToAndroid push crd rf lf af ts).effects.get? j =
            some (.pushFile lp q rp)) := by
  constructor
  · intro pull write fp ex af lf ts r h
    exact android_mkdir_before_pull pull write fp ex af lf ts r h
  · intro push crd rf lf af ts n p q hc hn
    obtain ⟨i, j, rc, lp, rp, hij, hi, hj⟩ :=
      processItems_create_before_nested_push push crd hn lf ⟨n, 0, 0, 0⟩
    refine ⟨i + 1 + 1, j + 1 + 1, rc, lp, rp, by omega, ?_, ?_⟩
    · simp only [transferLocalFolderToAndroid, hc]
      rw [List.get?_cons_succ, List.get?_cons_succ]
      exact hi
    · simp only [transferLocalFolderToAndroid, hc]
      rw [List.get?_cons_succ, List.get?_cons_succ]
      exact hj

/-- Witness for C3 (amended) at concrete transfers in both directions. -/
theorem C3_ordering_witness :
    (0 : Nat) < 4 ∧
    ∃ i j rc lp rp, i < j ∧
      (transferLocalFolderToAndroid (fun _ => .ok ()) (fun _ => .ok ()) []
        "/home/u/src" "/sdcard/dest"
        (.cons (.ldir "sub" (.cons (.lfile "b") .nil)) .nil)).effects.get? i =
        some (.createDirAndroid ("/sdcard/dest" ++ "/" ++ "sub") rc) ∧
      (transferLocalFolderToAndroid (fun _ => .ok ()) (fun _ => .ok ()) []
        "/home/u/src" "/sdcard/dest"
        (.cons (.ldir "sub" (.cons (.lfile "b") .nil)) .nil)).effects.get? j =
        some (.pushFile lp (("/sdcard/dest" ++ "/" ++ "sub") ++ "/" ++ "b") rp) :=
  ⟨C3_ordering.1 (fun _ => .ok ()) (fun _ => .ok ()) [] (fun _ => false)
     "/sdcard/src" "/home/u/dest"
     (.cons (.node "sub" 16877 0 (.cons (.node "b" 33188 5 .nil) .nil)) .nil)
     ⟨[⟨"/sdcard/src/sub/b", "b", 5⟩], [⟨"/sdcard/src/sub", "sub"⟩]⟩ rfl
     0 4 (.mkdirLocal "/home/u/dest")
     (.pullFile "/sdcard/src/sub/b" "/home/u/dest/sub/b" ⟨true, none⟩)
     (by decide) rfl (by decide) rfl,
   C3_ordering.2 (fun _ => .ok ()) (fun _ => .ok ()) [] "/home/u/src"
     "/sdcard/dest" (.cons (.ldir "sub" (.cons (.lfile "b") .nil)) .nil) 1
     ("/sdcard/dest" ++ "/" ++ "sub") (("/sdcard/dest" ++ "/" ++ "sub") ++ "/" ++ "b")
     rfl (.here .nil (.head ("/sdcard/dest" ++ "/" ++ "sub") "b" .nil))⟩

/-- C4.  Parent-before-child.  For the Android scan: in every successful
scan result a directory's entry precedes, in `directories` order, the entry
of every directory nested inside it, and for every nested file its
containing directory is in `directories` while the file is in `files` (the
executor then processes all of `directories` before all of `files`).  For
the local traversal (`processDirectory`): a directory's `create-directory`
invoke precedes, in the execution trace, the creation of every nested
subdirectory and the push of every nested file. -/
theorem C4_parent_before_child :
    (∀ (fp : List String) (base : String) (ts : AForest) (p q : String)
        (r : ScanResult), ANestedDir base ts p q →
        scanItems fp base ts = .ok r →
        [p, q].Sublist (r.directories.map (fun d => d.path))) ∧
    (∀ (fp : List String) (base : String) (ts : AForest) (p q : String)
        (r : ScanResult), ANestedFile base ts p q →
        scanItems fp base ts = .ok r →
        p ∈ r.directories.map (fun d => d.path) ∧
        q ∈ r.files.map (fun f => f.path)) ∧
    (∀ (push crd : String → Except String Unit) (ld ad : String)
        (ts : LForest) (c : Counters) (p q : String), LNestedDir ad ts p q →
        ∃ i j rc rq, i < j ∧
          (processItems push crd ld ad ts c).2.get? i =
            some (.createDirAndroid p rc) ∧
          (processItems push crd ld ad ts c).2.get? j =
            some (.createDirAndroid q rq)) ∧
    (∀ (push crd : String → Except String Unit) (ld ad : String)
        (ts : LForest) (c : Counters) (p q : String), LNestedFile ad ts p q →
        ∃ i j rc lp rp, i < j ∧
          (processItems push crd ld ad ts c).2.get? i =
            some (.createDirAndroid p rc) ∧
          (processItems push crd ld ad ts c).2.get? j =
            some (.pushFile lp q rp)) := by
  refine ⟨?_, ?_, ?_, ?_⟩
  · intro fp base ts p q r hn hs
    exact scan_parent_dir_before_child hn hs
  · intro fp base ts p q r hn hs
    exact scan_nested_file_in_plan hn hs
  · intro push crd ld ad ts c p q hn
    exact processItems_create_before_nested_create push crd hn ld c
  · intro push crd ld ad ts c p q hn
    exact processItems_create_before_nested_push push crd hn ld c

/-- Witness for C4 on concrete depth-2 trees, one per conjunct. -/
theorem C4_parent_before_child_witness :
    [joinAndroid "/sdcard/src" "a",
     joinAndroid (joinAndroid "/sdcard/src" "a") "b"].Sublist
      ([⟨joinAndroid "/sdcard/src" "a", "a"⟩,
        ⟨joinAndroid (joinAndroid "/sdcard/src" "a") "b", "b"⟩].map
        (fun d : ScanDir => d.path)) ∧
    (joinAndroid "/sdcard/src" "a" ∈
      ([⟨joinAndroid "/sdcard/src" "a", "a"⟩].map
        (fun d : ScanDir => d.path)) ∧
     joinAndroid (joinAndroid "/sdcard/src" "a") "f" ∈
      ([⟨joinAndroid (joinAndroid "/sdcard/src" "a") "f", "f", 3⟩].map
        (fun f : ScanFile => f.path))) ∧
    (∃ i j rc rq, i < j ∧
      (processItems (fun _ => .ok ()) (fun _ => .ok ()) "/h" "/s"
        (.cons (.ldir "a" (.cons (.ldir "b" .nil) .nil)) .nil)
        ⟨0, 0, 0, 0⟩).2.get? i =
        some (.createDirAndroid ("/s" ++ "/" ++ "a") rc) ∧
      (processItems (fun _ => .ok ()) (fun _ => .ok ()) "/h" "/s"
        (.cons (.ldir "a" (.cons (.ldir "b" .nil) .nil)) .nil)
        ⟨0, 0, 0, 0⟩).2.get? j =
        some (.createDirAndroid (("/s" ++ "/" ++ "a") ++ "/" ++ "b") rq)) ∧
    (∃ i j rc lp rp, i < j ∧
      (processItems (fun _ => .ok ()) (fun _ => .ok ()) "/h" "/s"
        (.cons (.ldir "a" (.cons (.lfile "f") .nil)) .nil)
        ⟨1, 0, 0, 0⟩).2.get? i =
        some (.createDirAndroid ("/s" ++ "/" ++ "a") rc) ∧
      (processItems (fun _ => .ok ()) (fun _ => .ok ()) "/h" "/s"
        (.cons (.ldir "a" (.cons (.lfile "f") .nil)) .nil)
        ⟨1, 0, 0, 0⟩).2.get? j =
        some (.pushFile lp (("/s" ++ "/" ++ "a") ++ "/" ++ "f") rp)) :=
  ⟨C4_parent_before_child.1 [] "/sdcard/src"
     (.cons (.node "a" 16877 0 (.cons (.node "b" 16877 0 .nil) .nil)) .nil)
     (joinAndroid "/sdcard/src" "a")
     (joinAndroid (joinAndroid "/sdcard/src" "a") "b")
     ⟨[], [⟨joinAndroid "/sdcard/src" "a", "a"⟩,
           ⟨joinAndroid (joinAndroid "/sdcard/src" "a") "b", "b"⟩]⟩
     (.here .nil (by decide) (.head .nil (by decide))) rfl,
   C4_parent_before_child.2.1 [] "/sdcard/src"
     (.cons (.node "a" 16877 0 (.cons (.node "f" 33188 3 .nil) .nil)) .nil)
     (joinAndroid "/sdcard/src" "a")
     (joinAndroid (joinAndroid "/sdcard/src" "a") "f")
     ⟨[⟨joinAndroid (joinAndroid "/sdcard/src" "a") "f", "f", 3⟩],
      [⟨joinAndroid "/sdcard/src" "a", "a"⟩]⟩
     (.here .nil (by decide) (.head .nil (by decide))) rfl,
   C4_parent_before_child.2.2.1 (fun _ => .ok ()) (fun _ => .ok ()) "/h" "/s"
     (.cons (.ldir "a" (.cons (.ldir "b" .nil) .nil)) .nil) ⟨0, 0, 0, 0⟩
     ("/s" ++ "/" ++ "a") (("/s" ++ "/" ++ "a") ++ "/" ++ "b")
     (.here .nil (.head ("/s" ++ "/" ++ "a") "b" .nil .nil)),
   C4_parent_before_child.2.2.2 (fun _ => .ok ()) (fun _ => .ok ()) "/h" "/s"
     (.cons (.ldir "a" (.cons (.lfile "f") .nil)) .nil) ⟨1, 0, 0, 0⟩
     ("/s" ++ "/" ++ "a") (("/s" ++ "/" ++ "a") ++ "/" ++ "f")
     (.here .nil (.head ("/s" ++ "/" ++ "a") "f" .nil))⟩
